import Mathlib

/-!
Shallow embedding of `crates/bevy_render/src/render_resource/pipeline_cache.rs`.

Rust `HashMap` is modelled as an association list with `lookupA` / `insertA` /
`eraseA` (first binding wins); Rust `HashSet` is modelled as a duplicate-free
list with `insertNat` (insertion is a no-op when the element is present, as for
`HashSet::insert`).  Iteration order of a hash container is unspecified in
Rust; the list order is the modelling choice here.

The external collaborators (shader preprocessor, module-descriptor conversion,
GPU device) are opaque capabilities in the source; they are modelled by a
`ShaderEnv` record of functions plus a `DeviceState` record of creation
counters, so that "the device created a module" is observable as a counter
increment and each created GPU object gets a fresh numeric identity.
-/

deriving instance DecidableEq for Except

/-- Association-list lookup, modelling `HashMap::get`. -/
def lookupA {K V : Type} [DecidableEq K] : List (K × V) → K → Option V
  | [], _ => none
  | (k', v) :: t, k => if k' = k then some v else lookupA t k

/-- Association-list insert/replace, modelling `HashMap::insert`. -/
def insertA {K V : Type} [DecidableEq K] : List (K × V) → K → V → List (K × V)
  | [], k, v => [(k, v)]
  | (k', v') :: t, k, v => if k' = k then (k, v) :: t else (k', v') :: insertA t k v

/-- Association-list removal, modelling `HashMap::remove`. -/
def eraseA {K V : Type} [DecidableEq K] : List (K × V) → K → List (K × V)
  | [], _ => []
  | (k', v') :: t, k => if k' = k then t else (k', v') :: eraseA t k

/-- Set insertion, modelling `HashSet::insert`: no-op when already present. -/
def insertNat (l : List Nat) (x : Nat) : List Nat :=
  if x ∈ l then l else l ++ [x]

/-- `ShaderImport` (from the `render_resource` shader module, outside this
file): either an asset-path import or a custom (named) import.  Modelled from
the spec: "a logical name a shader source uses to reference another shader's
content"; the two variants are distinguished because `ShaderCache::get` counts
only `AssetPath` imports. -/
inductive ShaderImport : Type
  | assetPath (p : String)
  | custom (p : String)
deriving DecidableEq, Repr

/-- True exactly on the `AssetPath` variant, as in
`matches!(import, ShaderImport::AssetPath(_))`. -/
def ShaderImport.isAssetPath : ShaderImport → Bool
  | .assetPath _ => true
  | .custom _ => false

/-- `shader.imports().filter(AssetPath).count()` over a list of imports. -/
def countAssetImports (l : List ShaderImport) : Nat :=
  (l.filter ShaderImport.isAssetPath).length

/-- `Shader` (defined outside this file).  Modelled from the spec: "raw source
text/binary plus: optional declared import path ... and the set of import paths
it itself references".  Only the accessors `import_path()` and `imports()` are
read by `pipeline_cache.rs`; the raw text is an opaque payload. -/
structure Shader : Type where
  import_path : Option ShaderImport
  imports : List ShaderImport
  source : String
deriving DecidableEq, Repr

/-- Handles are opaque stable identifiers; modelled as naturals. -/
abbrev Handle := Nat

abbrev CachedPipelineId := Nat

/-- `ProcessedShader` (defined outside this file): the preprocessor output,
opaque to the cache; carried inside `AsModuleDescriptorError` for diagnostics. -/
structure ProcessedShader : Type where
  payload : String
deriving DecidableEq, Repr

/-- `PipelineCacheError`.  External error payloads (`ProcessShaderError`,
`AsModuleDescriptorError`, validation description) are opaque strings. -/
inductive PipelineCacheError : Type
  | ShaderNotLoaded (h : Handle)
  | ProcessShaderError (e : String)
  | AsModuleDescriptorError (e : String) (src : ProcessedShader)
  | ShaderImportNotYetAvailable
  | CreateShaderModule (description : String)
deriving DecidableEq, Repr

/-- The two retryable errors of the `process_queue` classification. -/
def PipelineCacheError.isRetryable : PipelineCacheError → Bool
  | .ShaderNotLoaded _ => true
  | .ShaderImportNotYetAvailable => true
  | _ => false

/-- `ShaderData`: per-shader dependency record.  GPU shader modules are
identified by the numeral minted at their creation (`Arc<ShaderModule>` sharing
becomes equality of that identity). -/
structure ShaderData : Type where
  pipelines : List CachedPipelineId
  processed_shaders : List (List String × Nat)
  resolved_imports : List (ShaderImport × Handle)
  dependents : List Handle
deriving DecidableEq, Repr

/-- `ShaderData::default()`. -/
def emptyShaderData : ShaderData :=
  { pipelines := [], processed_shaders := [], resolved_imports := [], dependents := [] }

/-- `ShaderCache` state.  The `processor` field of the source is a stateless
capability and lives in `ShaderEnv` instead. -/
structure ShaderCache : Type where
  data : List (Handle × ShaderData)
  shaders : List (Handle × Shader)
  import_path_shaders : List (ShaderImport × Handle)
  waiting_on_import : List (ShaderImport × List Handle)
deriving DecidableEq, Repr

def emptyShaderCache : ShaderCache :=
  { data := [], shaders := [], import_path_shaders := [], waiting_on_import := [] }

/-- Creation counters of the GPU device abstraction: `next_*` mints fresh
object identities, `*_calls` counts device creation calls. -/
structure DeviceState : Type where
  next_module : Nat
  module_calls : Nat
  next_layout : Nat
  layout_calls : Nat
  next_pipeline : Nat
  pipeline_calls : Nat
deriving DecidableEq, Repr

def emptyDeviceState : DeviceState :=
  { next_module := 0, module_calls := 0, next_layout := 0, layout_calls := 0,
    next_pipeline := 0, pipeline_calls := 0 }

/-- The opaque external capabilities consumed by `ShaderCache::get`:
the `webgl` feature flag, the storage-buffer capability probe
(`get_supported_read_only_binding_type(3)` matching `Storage`), the shader
preprocessor, the module-descriptor conversion, and the synchronously captured
validation error of `create_shader_module` (`none` also models the wasm case
where the error surfaces asynchronously and is not caught). -/
structure ShaderEnv : Type where
  webgl : Bool
  supports_storage_buffers : Bool
  process : Shader → List String → List (Handle × Shader) →
    List (ShaderImport × Handle) → Except String ProcessedShader
  get_module_descriptor : ProcessedShader → Except String String
  validation_error : String → Option String

/-- `ShaderCache::get`.  Returns the result together with the mutated cache and
device state (in Rust the mutation is in place through `&mut self`). -/
def ShaderCache.get (env : ShaderEnv) (c : ShaderCache) (dev : DeviceState)
    (pipeline : CachedPipelineId) (handle : Handle) (shader_defs : List String) :
    Except PipelineCacheError Nat × ShaderCache × DeviceState :=
  match lookupA c.shaders handle with
  | none => (.error (.ShaderNotLoaded handle), c, dev)
  | some shader =>
    -- let data = self.data.entry(handle).or_default();
    let data := (lookupA c.data handle).getD emptyShaderData
    let c := { c with data := insertA c.data handle data }
    let n_asset_imports := countAssetImports shader.imports
    let n_resolved_asset_imports := countAssetImports (data.resolved_imports.map Prod.fst)
    if n_asset_imports ≠ n_resolved_asset_imports then
      (.error .ShaderImportNotYetAvailable, c, dev)
    else
      -- data.pipelines.insert(pipeline);
      let data := { data with pipelines := insertNat data.pipelines pipeline }
      let c := { c with data := insertA c.data handle data }
      match lookupA data.processed_shaders shader_defs with
      | some module => (.ok module, c, dev)
      | none =>
        let defs1 := if env.webgl then shader_defs ++ ["NO_ARRAY_TEXTURES_SUPPORT"]
          else shader_defs
        let defs2 := if env.supports_storage_buffers then defs1
          else defs1 ++ ["NO_STORAGE_BUFFERS_SUPPORT"]
        match env.process shader defs2 c.shaders c.import_path_shaders with
        | .error err => (.error (.ProcessShaderError err), c, dev)
        | .ok processed =>
          match env.get_module_descriptor processed with
          | .error err => (.error (.AsModuleDescriptorError err processed), c, dev)
          | .ok module_descriptor =>
            -- the device call happens before the validation scope is popped
            let shader_module := dev.next_module
            let dev := { dev with next_module := dev.next_module + 1,
                                  module_calls := dev.module_calls + 1 }
            match env.validation_error module_descriptor with
            | some description => (.error (.CreateShaderModule description), c, dev)
            | none =>
              let data := { data with
                processed_shaders := insertA data.processed_shaders shader_defs shader_module }
              let c := { c with data := insertA c.data handle data }
              (.ok shader_module, c, dev)

/-- The worklist loop of `ShaderCache::clear`.  The `Vec` used as a stack is
modelled with its top at the head of the list, so `pop` takes the head and
`extend(dependents)` becomes `dependents.reverse ++ rest`.  The source loop
keeps no visited set and so need not terminate; `fuel` bounds the number of
pops, `none` meaning the bound was hit with work remaining. -/
def ShaderCache.clearLoop :
    Nat → ShaderCache → List Handle → List CachedPipelineId →
    Option (ShaderCache × List CachedPipelineId)
  | _, c, [], acc => some (c, acc)
  | 0, _, _ :: _, _ => none
  | fuel + 1, c, handle :: rest, acc =>
    match lookupA c.data handle with
    | none => ShaderCache.clearLoop fuel c rest acc
    | some d =>
      let c' := { c with data := insertA c.data handle { d with processed_shaders := [] } }
      ShaderCache.clearLoop fuel c' (d.dependents.reverse ++ rest) (acc ++ d.pipelines)

/-- `ShaderCache::clear`. -/
def ShaderCache.clear (fuel : Nat) (c : ShaderCache) (handle : Handle) :
    Option (ShaderCache × List CachedPipelineId) :=
  ShaderCache.clearLoop fuel c [handle] []

/-- `self.data.entry(h).or_default()` followed by a mutation of that entry. -/
def ShaderCache.updateData (c : ShaderCache) (h : Handle) (f : ShaderData → ShaderData) :
    ShaderCache :=
  { c with data := insertA c.data h (f ((lookupA c.data h).getD emptyShaderData)) }

/-- One iteration of the waiting-shader drain loop in `ShaderCache::set_shader`:
record the resolved import for the waiting shader and add it as a dependent of
the newly registered shader. -/
def ShaderCache.resolveWaiting (path : ShaderImport) (handle : Handle)
    (c : ShaderCache) (waiting_shader : Handle) : ShaderCache :=
  let c := c.updateData waiting_shader fun d =>
    { d with resolved_imports := insertA d.resolved_imports path handle }
  c.updateData handle fun d =>
    { d with dependents := insertNat d.dependents waiting_shader }

/-- One iteration of the import loop in `ShaderCache::set_shader`: resolve the import
if a shader already provides it, otherwise join that path's waiting
list. -/
def ShaderCache.resolveImport (handle : Handle) (c : ShaderCache) (imp : ShaderImport) :
    ShaderCache :=
  match lookupA c.import_path_shaders imp with
  | some import_handle =>
    let c := c.updateData handle fun d =>
      { d with resolved_imports := insertA d.resolved_imports imp import_handle }
    c.updateData import_handle fun d =>
      { d with dependents := insertNat d.dependents handle }
  | none =>
    let waiting := (lookupA c.waiting_on_import imp).getD []
    { c with waiting_on_import := insertA c.waiting_on_import imp (waiting ++ [handle]) }

/-- The import-path registration of `ShaderCache::set_shader`: publish the
shader's declared import path and resolve every shader waiting on it
(`waiting_shaders.drain(..)` leaves the entry present but empty). -/
def ShaderCache.registerImportPath (c : ShaderCache) (handle : Handle) (shader : Shader) :
    ShaderCache :=
  match shader.import_path with
  | some path =>
    let c := { c with import_path_shaders := insertA c.import_path_shaders path handle }
    match lookupA c.waiting_on_import path with
    | some waiting_shaders =>
      let c := waiting_shaders.foldl (ShaderCache.resolveWaiting path handle) c
      { c with waiting_on_import := insertA c.waiting_on_import path [] }
    | none => c
  | none => c

/-- The registration phase of `ShaderCache::set_shader` after the invalidation
walk: publish the import path, resolve this shader's own imports, and replace
the stored source unconditionally. -/
def ShaderCache.setShaderPost (c : ShaderCache) (handle : Handle) (shader : Shader) :
    ShaderCache :=
  let c := c.registerImportPath handle shader
  let c := shader.imports.foldl (ShaderCache.resolveImport handle) c
  { c with shaders := insertA c.shaders handle shader }

/-- `ShaderCache::set_shader`. -/
def ShaderCache.set_shader (fuel : Nat) (c : ShaderCache) (handle : Handle)
    (shader : Shader) : Option (ShaderCache × List CachedPipelineId) :=
  match ShaderCache.clear fuel c handle with
  | none => none
  | some (c, pipelines_to_queue) =>
    some (c.setShaderPost handle shader, pipelines_to_queue)

/-- `ShaderCache::remove`. -/
def ShaderCache.remove (fuel : Nat) (c : ShaderCache) (handle : Handle) :
    Option (ShaderCache × List CachedPipelineId) :=
  match ShaderCache.clear fuel c handle with
  | none => none
  | some (c, pipelines_to_queue) =>
    let c :=
      match lookupA c.shaders handle with
      | some shader =>
        let c := { c with shaders := eraseA c.shaders handle }
        match shader.import_path with
        | some import_path =>
          { c with import_path_shaders := eraseA c.import_path_shaders import_path }
        | none => c
      | none => c
    some (c, pipelines_to_queue)

/-- `BindGroupLayout`: only its `id()` is consulted by the layout cache key. -/
structure BindGroupLayout : Type where
  id : Nat
deriving DecidableEq, Repr

/-- `LayoutCache`: pipeline-layout objects keyed by bind-group-layout id
sequences; values are the minted identities of the created layout objects. -/
structure LayoutCache : Type where
  layouts : List (List Nat × Nat)
deriving DecidableEq, Repr

/-- `LayoutCache::get`. -/
def LayoutCache.get (lc : LayoutCache) (dev : DeviceState)
    (bind_group_layouts : List BindGroupLayout) : Nat × LayoutCache × DeviceState :=
  let key := bind_group_layouts.map BindGroupLayout.id
  match lookupA lc.layouts key with
  | some layout => (layout, lc, dev)
  | none =>
    let layout := dev.next_layout
    (layout,
     { lc with layouts := insertA lc.layouts key layout },
     { dev with next_layout := dev.next_layout + 1, layout_calls := dev.layout_calls + 1 })

/-- `Pipeline`: a compiled render or compute pipeline object, identified by the
numeral minted at its creation. -/
inductive Pipeline : Type
  | RenderPipeline (p : Nat)
  | ComputePipeline (p : Nat)
deriving DecidableEq, Repr

/-- `CachedPipelineState`. -/
inductive CachedPipelineState : Type
  | Queued
  | Ok (p : Pipeline)
  | Err (e : PipelineCacheError)
deriving DecidableEq, Repr

/-- `CachedPipelineState::unwrap`: the `panic!` of the `Queued` and `Err` arms
is modelled as `none`, the `Ok` arm returns its pipeline. -/
def CachedPipelineState.unwrap : CachedPipelineState → Option Pipeline
  | .Ok pipeline => some pipeline
  | .Queued => none
  | .Err _ => none

/-- Vertex stage of a render-pipeline descriptor (`VertexState`, defined
outside this file).  Only the fields read by the cache's control flow (shader
handle and definition list) are modelled; entry point, buffers and
fixed-function state are opaque payload forwarded to the device. -/
structure VertexState : Type where
  shader : Handle
  shader_defs : List String
deriving DecidableEq, Repr

/-- Fragment stage of a render-pipeline descriptor (`FragmentState`). -/
structure FragmentState : Type where
  shader : Handle
  shader_defs : List String
deriving DecidableEq, Repr

/-- `RenderPipelineDescriptor` (defined outside this file), restricted to the
fields `pipeline_cache.rs` branches on. -/
structure RenderPipelineDescriptor : Type where
  layout : Option (List BindGroupLayout)
  vertex : VertexState
  fragment : Option FragmentState
deriving DecidableEq, Repr

/-- `ComputePipelineDescriptor` (defined outside this file), restricted to the
fields `pipeline_cache.rs` branches on. -/
structure ComputePipelineDescriptor : Type where
  layout : Option (List BindGroupLayout)
  shader : Handle
  shader_defs : List String
deriving DecidableEq, Repr

/-- The private `PipelineDescriptor` tagged union. -/
inductive PipelineDescriptor : Type
  | RenderPipelineDescriptor (d : RenderPipelineDescriptor)
  | ComputePipelineDescriptor (d : ComputePipelineDescriptor)
deriving DecidableEq, Repr

/-- `CachedPipeline`: immutable descriptor plus mutable state. -/
structure CachedPipeline : Type where
  descriptor : PipelineDescriptor
  state : CachedPipelineState
deriving DecidableEq, Repr

/-- `PipelineCache`.  The `device: RenderDevice` field is modelled by the
`DeviceState` counters (its capabilities live in `ShaderEnv`).  The ghost
`log` field records the errors reported through `error!`/`log_shader_error`
in `process_queue`, so that "reported via diagnostics" is observable. -/
structure PipelineCache : Type where
  layout_cache : LayoutCache
  shader_cache : ShaderCache
  device : DeviceState
  pipelines : List CachedPipeline
  waiting_pipelines : List CachedPipelineId
  log : List PipelineCacheError
deriving DecidableEq, Repr

/-- `PipelineCache::new`. -/
def PipelineCache.new : PipelineCache :=
  { layout_cache := { layouts := [] }, shader_cache := emptyShaderCache,
    device := emptyDeviceState, pipelines := [], waiting_pipelines := [], log := [] }

/-- `PipelineCache::queue_render_pipeline`. -/
def PipelineCache.queue_render_pipeline (pc : PipelineCache)
    (descriptor : RenderPipelineDescriptor) : CachedPipelineId × PipelineCache :=
  let id := pc.pipelines.length
  (id,
   { pc with
     pipelines := pc.pipelines ++
       [{ descriptor := .RenderPipelineDescriptor descriptor, state := .Queued }],
     waiting_pipelines := insertNat pc.waiting_pipelines id })

/-- `PipelineCache::queue_compute_pipeline`. -/
def PipelineCache.queue_compute_pipeline (pc : PipelineCache)
    (descriptor : ComputePipelineDescriptor) : CachedPipelineId × PipelineCache :=
  let id := pc.pipelines.length
  (id,
   { pc with
     pipelines := pc.pipelines ++
       [{ descriptor := .ComputePipelineDescriptor descriptor, state := .Queued }],
     waiting_pipelines := insertNat pc.waiting_pipelines id })

/-- Tail of `process_render_pipeline` after both shader stages resolved:
resolve the optional layout through the layout cache, then
`create_render_pipeline` on the device (assumed infallible). -/
def PipelineCache.finishRenderPipeline (pc : PipelineCache)
    (descriptor : RenderPipelineDescriptor) : CachedPipelineState × PipelineCache :=
  let pc :=
    match descriptor.layout with
    | some layout =>
      match LayoutCache.get pc.layout_cache pc.device layout with
      | (_, lc, dev) => { pc with layout_cache := lc, device := dev }
    | none => pc
  let pipeline_object := pc.device.next_pipeline
  let dev := { pc.device with next_pipeline := pc.device.next_pipeline + 1,
                              pipeline_calls := pc.device.pipeline_calls + 1 }
  (.Ok (.RenderPipeline pipeline_object), { pc with device := dev })

/-- `PipelineCache::process_render_pipeline`. -/
def PipelineCache.process_render_pipeline (env : ShaderEnv) (pc : PipelineCache)
    (id : CachedPipelineId) (descriptor : RenderPipelineDescriptor) :
    CachedPipelineState × PipelineCache :=
  match ShaderCache.get env pc.shader_cache pc.device id
      descriptor.vertex.shader descriptor.vertex.shader_defs with
  | (.error err, sc, dev) => (.Err err, { pc with shader_cache := sc, device := dev })
  | (.ok _vertex_module, sc, dev) =>
    let pc := { pc with shader_cache := sc, device := dev }
    match descriptor.fragment with
    | some fragment =>
      match ShaderCache.get env pc.shader_cache pc.device id
          fragment.shader fragment.shader_defs with
      | (.error err, sc, dev) => (.Err err, { pc with shader_cache := sc, device := dev })
      | (.ok _fragment_module, sc, dev) =>
        PipelineCache.finishRenderPipeline { pc with shader_cache := sc, device := dev }
          descriptor
    | none => PipelineCache.finishRenderPipeline pc descriptor

/-- `PipelineCache::process_compute_pipeline`. -/
def PipelineCache.process_compute_pipeline (env : ShaderEnv) (pc : PipelineCache)
    (id : CachedPipelineId) (descriptor : ComputePipelineDescriptor) :
    CachedPipelineState × PipelineCache :=
  match ShaderCache.get env pc.shader_cache pc.device id
      descriptor.shader descriptor.shader_defs with
  | (.error err, sc, dev) => (.Err err, { pc with shader_cache := sc, device := dev })
  | (.ok _compute_module, sc, dev) =>
    let pc := { pc with shader_cache := sc, device := dev }
    let pc :=
      match descriptor.layout with
      | some layout =>
        match LayoutCache.get pc.layout_cache pc.device layout with
        | (_, lc, dev) => { pc with layout_cache := lc, device := dev }
      | none => pc
    let pipeline_object := pc.device.next_pipeline
    let dev := { pc.device with next_pipeline := pc.device.next_pipeline + 1,
                                pipeline_calls := pc.device.pipeline_calls + 1 }
    (.Ok (.ComputePipeline pipeline_object), { pc with device := dev })

/-- Dispatch on the descriptor variant, as in the `match &pipeline.descriptor`
of `process_queue`. -/
def PipelineCache.runDescriptor (env : ShaderEnv) (pc : PipelineCache)
    (id : CachedPipelineId) (cp : CachedPipeline) : CachedPipelineState × PipelineCache :=
  match cp.descriptor with
  | .RenderPipelineDescriptor d => PipelineCache.process_render_pipeline env pc id d
  | .ComputePipelineDescriptor d => PipelineCache.process_compute_pipeline env pc id d

/-- The compilation attempt of one queued id in `process_queue`: run the
descriptor, store the resulting state, and re-insert the id into the (being
rebuilt) work-queue when the result is `Err`. -/
def PipelineCache.compileAttempt (env : ShaderEnv) (pc : PipelineCache)
    (id : CachedPipelineId) (cp : CachedPipeline) : PipelineCache :=
  match PipelineCache.runDescriptor env pc id cp with
  | (state, pc1) =>
    let pc2 := { pc1 with pipelines := pc1.pipelines.set id { cp with state := state } }
    match state with
    | .Err _ => { pc2 with waiting_pipelines := insertNat pc2.waiting_pipelines id }
    | _ => pc2

/-- The body of the `for id in waiting_pipelines` loop of `process_queue`:
skip `Ok`, fall through to recompilation for `Queued` and the two retryable
errors, and report-and-drop (appending to the ghost `log`) for the three
terminal errors.  Indexing `pipelines[id]` panics in Rust for an out-of-range
id; that situation is unreachable (ids are minted by the queue operations) and
modelled as a no-op. -/
def PipelineCache.processEntry (env : ShaderEnv) (pc : PipelineCache)
    (id : CachedPipelineId) : PipelineCache :=
  match pc.pipelines.get? id with
  | none => pc
  | some pipeline =>
    match pipeline.state with
    | .Ok _ => pc
    | .Queued => PipelineCache.compileAttempt env pc id pipeline
    | .Err e =>
      match e with
      | .ShaderNotLoaded _ => PipelineCache.compileAttempt env pc id pipeline
      | .ShaderImportNotYetAvailable => PipelineCache.compileAttempt env pc id pipeline
      | .ProcessShaderError _ => { pc with log := pc.log ++ [e] }
      | .AsModuleDescriptorError _ _ => { pc with log := pc.log ++ [e] }
      | .CreateShaderModule _ => { pc with log := pc.log ++ [e] }

/-- `PipelineCache::process_queue`: take the work-queue, then handle every
queued id in iteration order. -/
def PipelineCache.process_queue (env : ShaderEnv) (pc : PipelineCache) : PipelineCache :=
  let waiting_pipelines := pc.waiting_pipelines
  waiting_pipelines.foldl (PipelineCache.processEntry env)
    { pc with waiting_pipelines := [] }

/-- `PipelineCache::set_shader`: invalidate through the shader cache and
re-queue every affected pipeline.  `List.set` out of range is a no-op where the
Rust indexing would panic (unreachable: returned ids index real pipelines). -/
def PipelineCache.set_shader (fuel : Nat) (pc : PipelineCache) (handle : Handle)
    (shader : Shader) : Option PipelineCache :=
  match ShaderCache.set_shader fuel pc.shader_cache handle shader with
  | none => none
  | some (sc, pipelines_to_queue) =>
    some (pipelines_to_queue.foldl
      (fun pc cached_pipeline =>
        { pc with
          pipelines :=
            match pc.pipelines.get? cached_pipeline with
            | some cp => pc.pipelines.set cached_pipeline { cp with state := .Queued }
            | none => pc.pipelines,
          waiting_pipelines := insertNat pc.waiting_pipelines cached_pipeline })
      { pc with shader_cache := sc })

/-- `PipelineCache::remove_shader`. -/
def PipelineCache.remove_shader (fuel : Nat) (pc : PipelineCache) (handle : Handle) :
    Option PipelineCache :=
  match ShaderCache.remove fuel pc.shader_cache handle with
  | none => none
  | some (sc, pipelines_to_queue) =>
    some (pipelines_to_queue.foldl
      (fun pc cached_pipeline =>
        { pc with
          pipelines :=
            match pc.pipelines.get? cached_pipeline with
            | some cp => pc.pipelines.set cached_pipeline { cp with state := .Queued }
            | none => pc.pipelines,
          waiting_pipelines := insertNat pc.waiting_pipelines cached_pipeline })
      { pc with shader_cache := sc })

/-! ### Basic facts about the container model -/

theorem lookupA_insertA_self {K V : Type} [DecidableEq K] (l : List (K × V)) (k : K) (v : V) :
    lookupA (insertA l k v) k = some v := by
  induction l with
  | nil => simp [insertA, lookupA]
  | cons p t ih =>
    obtain ⟨k', v'⟩ := p
    by_cases hk : k' = k
    · subst hk; simp [insertA, lookupA]
    · simp [insertA, lookupA, hk, ih]

theorem lookupA_insertA_ne {K V : Type} [DecidableEq K] (l : List (K × V)) (k k' : K)
    (v : V) (h : k ≠ k') : lookupA (insertA l k v) k' = lookupA l k' := by
  induction l with
  | nil => simp [insertA, lookupA, h]
  | cons p t ih =>
    obtain ⟨k0, v0⟩ := p
    by_cases hk : k0 = k
    · subst hk; simp [insertA, lookupA, h]
    · simp [insertA, lookupA, hk, ih]

theorem insertA_lookup_eq {K V : Type} [DecidableEq K] (l : List (K × V)) (k : K) (v : V)
    (h : lookupA l k = some v) : insertA l k v = l := by
  induction l with
  | nil => simp [lookupA] at h
  | cons p t ih =>
    obtain ⟨k0, v0⟩ := p
    by_cases hk : k0 = k
    · subst hk
      simp [lookupA] at h
      simp [insertA, h]
    · simp [lookupA, hk] at h
      simp [insertA, hk, ih h]

theorem lookupA_mem {K V : Type} [DecidableEq K] {l : List (K × V)} {k : K} {v : V}
    (h : lookupA l k = some v) : (k, v) ∈ l := by
  induction l with
  | nil => simp [lookupA] at h
  | cons p t ih =>
    obtain ⟨k0, v0⟩ := p
    by_cases hk : k0 = k
    · subst hk
      simp [lookupA] at h
      simp [h]
    · simp [lookupA, hk] at h
      simp [ih h]

theorem mem_insertNat_self (l : List Nat) (x : Nat) : x ∈ insertNat l x := by
  unfold insertNat; split <;> simp [*]

theorem mem_insertNat_of_mem (l : List Nat) (x y : Nat) (h : x ∈ l) : x ∈ insertNat l y := by
  unfold insertNat; split <;> simp [*]

/-- The dependency record of a shader, defaulting to empty when absent. -/
def dataOf (c : ShaderCache) (h : Handle) : ShaderData :=
  (lookupA c.data h).getD emptyShaderData

/-- The set of pipeline ids registered against a shader. -/
def pipelinesOf (c : ShaderCache) (h : Handle) : List CachedPipelineId :=
  (dataOf c h).pipelines

/-! ### C8 -/

/-- C8: `CachedPipelineState::unwrap` returns the compiled pipeline exactly in
the `Ok` state; for `Queued` and for every `Err` it panics (modelled as
`none`), never producing a value. -/
theorem unwrap_ok_iff (s : CachedPipelineState) :
    (∀ p, s = .Ok p → s.unwrap = some p) ∧
    (s.unwrap = none ↔ s = .Queued ∨ ∃ e, s = .Err e) := by
  constructor
  · rintro p rfl; rfl
  · cases s <;> simp [CachedPipelineState.unwrap]

/-- Witness for C8 at a concrete `Err` state. -/
theorem unwrap_ok_iff_witness :
    (CachedPipelineState.Err .ShaderImportNotYetAvailable).unwrap = none :=
  (unwrap_ok_iff _).2.mpr (Or.inr ⟨_, rfl⟩)

/-! ### C6 -/

/-- `process_queue` with an empty work-queue is the identity. -/
theorem process_queue_empty_aux (env : ShaderEnv) (pc : PipelineCache)
    (h : pc.waiting_pipelines = []) : PipelineCache.process_queue env pc = pc := by
  unfold PipelineCache.process_queue
  rw [h]
  simp only [List.foldl_nil]
  cases pc
  simp_all

/-- C6: `process_queue` is idempotent when nothing intervenes: an id whose
state is already `Ok` is skipped with no state change and no device call (the
cache, device counters included, is returned unchanged), and once a pass has
resolved every pending id (empty work-queue) a further pass performs no work. -/
theorem process_queue_idempotent (env : ShaderEnv) (pc : PipelineCache) :
    (∀ id cp p, pc.pipelines.get? id = some cp → cp.state = .Ok p →
       PipelineCache.processEntry env pc id = pc) ∧
    (pc.waiting_pipelines = [] → PipelineCache.process_queue env pc = pc) ∧
    ((PipelineCache.process_queue env pc).waiting_pipelines = [] →
       PipelineCache.process_queue env (PipelineCache.process_queue env pc) =
         PipelineCache.process_queue env pc) := by
  refine ⟨?_, ?_, ?_⟩
  · intro id cp p hget hstate
    unfold PipelineCache.processEntry
    rw [hget]
    simp [hstate]
  · exact process_queue_empty_aux env pc
  · exact process_queue_empty_aux env _

/-- An environment whose external capabilities always fail; used by witnesses
that must not depend on external success. -/
def exEnvFail : ShaderEnv :=
  { webgl := false, supports_storage_buffers := true,
    process := fun _ _ _ _ => .error "e",
    get_module_descriptor := fun _ => .error "e",
    validation_error := fun _ => none }

/-- A pipeline record already in the `Ok` state. -/
def exOkPipeline : CachedPipeline :=
  { descriptor := .ComputePipelineDescriptor { layout := none, shader := 0, shader_defs := [] },
    state := .Ok (.ComputePipeline 0) }

/-- A cache holding one `Ok` pipeline. -/
def exPcOk : PipelineCache :=
  { PipelineCache.new with pipelines := [exOkPipeline] }

/-- Witness for C6 at a concrete cache holding one `Ok` pipeline. -/
theorem process_queue_idempotent_witness :
    PipelineCache.processEntry exEnvFail exPcOk 0 = exPcOk :=
  (process_queue_idempotent exEnvFail exPcOk).1 0 exOkPipeline (.ComputePipeline 0) rfl rfl

/-! ### C1 -/

/-- C1: in `process_queue`, an id in a retryable `Err` state (`ShaderNotLoaded`
or `ShaderImportNotYetAvailable`) falls through to recompilation this pass; an
id in a terminal `Err` state (`ProcessShaderError`, `AsModuleDescriptorError`,
`CreateShaderModule`) is reported via diagnostics (ghost `log`) and otherwise
left untouched — not re-queued, state still the same `Err`; and any id whose
compilation attempt ends in `Err` is re-inserted into the work-queue. -/
theorem process_queue_err_dispatch (env : ShaderEnv) (pc : PipelineCache)
    (id : CachedPipelineId) (cp : CachedPipeline) (e : PipelineCacheError) :
    (pc.pipelines.get? id = some cp → cp.state = .Err e → e.isRetryable = true →
       PipelineCache.processEntry env pc id = PipelineCache.compileAttempt env pc id cp) ∧
    (pc.pipelines.get? id = some cp → cp.state = .Err e → e.isRetryable = false →
       PipelineCache.processEntry env pc id = { pc with log := pc.log ++ [e] }) ∧
    (∀ e', (PipelineCache.runDescriptor env pc id cp).1 = .Err e' →
       id ∈ (PipelineCache.compileAttempt env pc id cp).waiting_pipelines) := by
  refine ⟨?_, ?_, ?_⟩
  · intro hget hstate hr
    unfold PipelineCache.processEntry
    rw [hget]
    cases e <;> simp_all [PipelineCacheError.isRetryable]
  · intro hget hstate hr
    unfold PipelineCache.processEntry
    rw [hget]
    cases e <;> simp_all [PipelineCacheError.isRetryable]
  · intro e' hrun
    unfold PipelineCache.compileAttempt
    rcases hr : PipelineCache.runDescriptor env pc id cp with ⟨st, pc1⟩
    rw [hr] at hrun
    simp at hrun
    subst hrun
    simp [mem_insertNat_self]

/-- A pipeline record stuck in a terminal error. -/
def exErrPipeline : CachedPipeline :=
  { descriptor := .ComputePipelineDescriptor { layout := none, shader := 0, shader_defs := [] },
    state := .Err (.ProcessShaderError "boom") }

/-- A cache holding one terminally failed pipeline. -/
def exPcErr : PipelineCache :=
  { PipelineCache.new with pipelines := [exErrPipeline] }

/-- Witness for C1: the terminal error is logged and nothing else changes. -/
theorem process_queue_err_dispatch_witness :
    PipelineCache.processEntry exEnvFail exPcErr 0 =
      { exPcErr with log := exPcErr.log ++ [.ProcessShaderError "boom"] } :=
  (process_queue_err_dispatch exEnvFail exPcErr 0 exErrPipeline
    (.ProcessShaderError "boom")).2.1 rfl rfl rfl

/-! ### C3 and C10: the error conditions of `ShaderCache::get` -/

theorem pipelinesOf_entry_default (sc : ShaderCache) (h x : Handle) :
    pipelinesOf { sc with data := insertA sc.data h (dataOf sc h) } x = pipelinesOf sc x := by
  by_cases hx : h = x
  · subst hx
    simp [pipelinesOf, dataOf, lookupA_insertA_self]
  · simp [pipelinesOf, dataOf, lookupA_insertA_ne _ _ _ _ hx]


/-- C3: `ShaderCache::get` fails with `ShaderNotLoaded` exactly when the handle
has no stored source; when a source is stored, it fails with
`ShaderImportNotYetAvailable` exactly when the count of declared asset-path imports
differs from the count of resolved asset-path imports; and when both
checks pass the pipeline id is registered in the shader's dependent-pipelines
set regardless of a processed-module cache hit or miss (and regardless of any
later compilation failure). -/
theorem shader_cache_get_error_conditions (env : ShaderEnv) (sc : ShaderCache)
    (dev : DeviceState) (pid : CachedPipelineId) (h : Handle) (defs : List String) :
    ((ShaderCache.get env sc dev pid h defs).1 = .error (.ShaderNotLoaded h) ↔
       lookupA sc.shaders h = none) ∧
    (∀ shader, lookupA sc.shaders h = some shader →
       ((ShaderCache.get env sc dev pid h defs).1 = .error .ShaderImportNotYetAvailable ↔
         countAssetImports shader.imports ≠
           countAssetImports ((dataOf sc h).resolved_imports.map Prod.fst))) ∧
    (∀ shader, lookupA sc.shaders h = some shader →
       countAssetImports shader.imports =
         countAssetImports ((dataOf sc h).resolved_imports.map Prod.fst) →
       pid ∈ pipelinesOf (ShaderCache.get env sc dev pid h defs).2.1 h) := by
  rcases hsh : lookupA sc.shaders h with _ | shader
  · refine ⟨?_, ?_, ?_⟩
    · unfold ShaderCache.get
      rw [hsh]
      simp
    · intro shader hs
      exact absurd hs (by simp)
    · intro shader hs
      exact absurd hs (by simp)
  · refine ⟨?_, ?_, ?_⟩
    · unfold ShaderCache.get
      rw [hsh]
      simp only [hsh, reduceCtorEq, iff_false]
      try dsimp only
      split
      · simp
      · split
        · simp
        · split
          · simp
          · split
            · simp
            · split <;> simp
    · intro shader' hs
      injection hs with hs
      subst hs
      unfold ShaderCache.get
      rw [hsh]
      try dsimp only
      constructor
      · intro hres
        revert hres
        split
        · intro _
          simp_all [dataOf]
        · intro hres
          exfalso
          revert hres
          split
          · simp
          · split
            · simp
            · split
              · simp
              · split <;> simp
      · intro hcount
        simp only [dataOf] at hcount
        split
        · rfl
        · exfalso
          rename_i hcond
          exact absurd hcount (by simpa using hcond)
    · intro shader' hs hcount
      injection hs with hs
      subst hs
      simp only [dataOf] at hcount
      unfold ShaderCache.get
      rw [hsh]
      try dsimp only
      rw [if_neg (by simpa using hcount)]
      split
      · simp [pipelinesOf, dataOf, lookupA_insertA_self, mem_insertNat_self]
      · split
        · simp [pipelinesOf, dataOf, lookupA_insertA_self, mem_insertNat_self]
        · split
          · simp [pipelinesOf, dataOf, lookupA_insertA_self, mem_insertNat_self]
          · split <;> simp [pipelinesOf, dataOf, lookupA_insertA_self, mem_insertNat_self]

/-- A shader without imports. -/
def exShader : Shader := { import_path := none, imports := [], source := "s" }

/-- A shader with a single, unresolved asset-path import. -/
def exShaderImp : Shader :=
  { import_path := none, imports := [.assetPath "lib.wgsl"], source := "c" }

/-- A cache with `exShader` stored under handle 0. -/
def exSc : ShaderCache :=
  { data := [], shaders := [(0, exShader)], import_path_shaders := [], waiting_on_import := [] }

/-- A cache with `exShaderImp` stored under handle 0 and nothing resolved. -/
def exScWait : ShaderCache :=
  { data := [], shaders := [(0, exShaderImp)], import_path_shaders := [],
    waiting_on_import := [(ShaderImport.assetPath "lib.wgsl", [0])] }

/-- Witness for C3: on a loaded, fully resolved shader the pipeline id gets
registered. -/
theorem shader_cache_get_error_conditions_witness :
    1 ∈ pipelinesOf (ShaderCache.get exEnvFail exSc emptyDeviceState 1 0 []).2.1 0 :=
  (shader_cache_get_error_conditions exEnvFail exSc emptyDeviceState 1 0 []).2.2
    exShader rfl rfl

/-- C10: when `ShaderCache::get` fails with a retryable error the pipeline id
is not registered anywhere: on `ShaderImportNotYetAvailable` the
dependent-pipelines set of every shader is exactly as before the call (only an
empty dependency record may have been created), and on `ShaderNotLoaded` the
cache and the device state are returned entirely unchanged, so such a
pipeline's recompilation can only come from the `process_queue` retry loop. -/
theorem get_failure_no_registration (env : ShaderEnv) (sc : ShaderCache) (dev : DeviceState)
    (pid : CachedPipelineId) (h : Handle) (defs : List String) :
    (∀ h0, (ShaderCache.get env sc dev pid h defs).1 = .error (.ShaderNotLoaded h0) →
       (ShaderCache.get env sc dev pid h defs).2.1 = sc ∧
       (ShaderCache.get env sc dev pid h defs).2.2 = dev) ∧
    ((ShaderCache.get env sc dev pid h defs).1 = .error .ShaderImportNotYetAvailable →
       ∀ x, pipelinesOf (ShaderCache.get env sc dev pid h defs).2.1 x = pipelinesOf sc x) := by
  rcases hsh : lookupA sc.shaders h with _ | shader
  · constructor
    · intro h0 _
      unfold ShaderCache.get
      rw [hsh]
      exact ⟨rfl, rfl⟩
    · intro hres
      unfold ShaderCache.get at hres
      rw [hsh] at hres
      exact absurd hres (by simp)
  · constructor
    · intro h0 hres
      exfalso
      revert hres
      unfold ShaderCache.get
      rw [hsh]
      try dsimp only
      split
      · simp
      · split
        · simp
        · split
          · simp
          · split
            · simp
            · split <;> simp
    · intro hres x
      unfold ShaderCache.get at hres ⊢
      rw [hsh] at hres ⊢
      revert hres
      try dsimp only
      split
      · intro _
        have hp := pipelinesOf_entry_default sc h x
        simp only [dataOf] at hp
        exact hp
      · intro hres
        exfalso
        revert hres
        split
        · simp
        · split
          · simp
          · split
            · simp
            · split <;> simp

/-- Witness for C10 at a concrete waiting shader. -/
theorem get_failure_no_registration_witness :
    pipelinesOf (ShaderCache.get exEnvFail exScWait emptyDeviceState 7 0 []).2.1 0 =
      pipelinesOf exScWait 0 :=
  ((get_failure_no_registration exEnvFail exScWait emptyDeviceState 7 0 []).2 rfl) 0

/-! ### C5: deduplication by exact key -/

/-- Anatomy of a successful `ShaderCache::get`: the stored sources are
untouched, the shader was loaded and fully resolved, its resolved imports are
unchanged, the returned module is now cached under exactly the given
definition list (other keys untouched), and the device was consulted exactly
when the processed-module cache missed, minting the returned module id. -/
theorem get_ok_spec (env : ShaderEnv) (sc : ShaderCache) (dev : DeviceState)
    (pid : CachedPipelineId) (h : Handle) (defs : List String)
    (m : Nat) (sc1 : ShaderCache) (dev1 : DeviceState)
    (hres : ShaderCache.get env sc dev pid h defs = (.ok m, sc1, dev1)) :
    sc1.shaders = sc.shaders ∧
    (∃ shader, lookupA sc.shaders h = some shader ∧
       countAssetImports shader.imports =
         countAssetImports ((dataOf sc h).resolved_imports.map Prod.fst)) ∧
    (dataOf sc1 h).resolved_imports = (dataOf sc h).resolved_imports ∧
    lookupA (dataOf sc1 h).processed_shaders defs = some m ∧
    (∀ k, k ≠ defs →
       lookupA (dataOf sc1 h).processed_shaders k =
         lookupA (dataOf sc h).processed_shaders k) ∧
    ((lookupA (dataOf sc h).processed_shaders defs = some m ∧ dev1 = dev) ∨
     (lookupA (dataOf sc h).processed_shaders defs = none ∧ m = dev.next_module ∧
      dev1 = { dev with next_module := dev.next_module + 1,
                        module_calls := dev.module_calls + 1 })) := by
  revert hres
  unfold ShaderCache.get
  rcases hsh : lookupA sc.shaders h with _ | shader
  · intro hres
    exact absurd hres (by simp)
  · try dsimp only
    split
    · intro hres
      exact absurd hres (by simp)
    · rename_i hcount
      rw [not_not] at hcount
      split
      · rename_i module hhit
        intro hres
        simp only [Prod.mk.injEq, Except.ok.injEq] at hres
        obtain ⟨hm, hsc1, hdev1⟩ := hres
        subst hm
        subst hsc1
        subst hdev1
        refine ⟨rfl, ⟨shader, rfl, by simpa [dataOf] using hcount⟩, ?_, ?_, ?_, ?_⟩
        · simp [dataOf, lookupA_insertA_self]
        · simpa [dataOf, lookupA_insertA_self] using hhit
        · intro k hk
          simp [dataOf, lookupA_insertA_self]
        · exact Or.inl ⟨by simpa [dataOf] using hhit, rfl⟩
      · rename_i hmiss
        split
        · intro hres
          exact absurd hres (by simp)
        · split
          · intro hres
            exact absurd hres (by simp)
          · split
            · intro hres
              exact absurd hres (by simp)
            · intro hres
              simp only [Prod.mk.injEq, Except.ok.injEq] at hres
              obtain ⟨hm, hsc1, hdev1⟩ := hres
              subst hm
              subst hsc1
              subst hdev1
              refine ⟨rfl, ⟨shader, rfl, by simpa [dataOf] using hcount⟩, ?_, ?_, ?_, ?_⟩
              · simp [dataOf, lookupA_insertA_self]
              · simp [dataOf, lookupA_insertA_self]
              · intro k hk
                simp [dataOf, lookupA_insertA_self, lookupA_insertA_ne _ _ _ _ (Ne.symm hk)]
              · exact Or.inr ⟨by simpa [dataOf] using hmiss, rfl, rfl⟩

/-- A processed-module cache hit returns the cached module without touching
the device. -/
theorem get_hit_result (env : ShaderEnv) (sc : ShaderCache) (dev : DeviceState)
    (pid : CachedPipelineId) (h : Handle) (defs : List String) (shader : Shader) (m : Nat)
    (hsh : lookupA sc.shaders h = some shader)
    (hcount : countAssetImports shader.imports =
      countAssetImports ((dataOf sc h).resolved_imports.map Prod.fst))
    (hhit : lookupA (dataOf sc h).processed_shaders defs = some m) :
    (ShaderCache.get env sc dev pid h defs).1 = .ok m ∧
    (ShaderCache.get env sc dev pid h defs).2.2 = dev := by
  unfold ShaderCache.get
  rw [hsh]
  try dsimp only
  rw [if_neg (by simpa [dataOf] using hcount)]
  simp only [dataOf] at hhit
  rw [hhit]
  exact ⟨rfl, rfl⟩

/-- `LayoutCache::get` is a pure memoization: re-asking with the same key
returns the same object and leaves cache and device untouched. -/
theorem layout_get_stable (lc : LayoutCache) (dev : DeviceState)
    (bgs : List BindGroupLayout) (l : Nat) (lc1 : LayoutCache) (dev1 : DeviceState)
    (hres : LayoutCache.get lc dev bgs = (l, lc1, dev1)) :
    LayoutCache.get lc1 dev1 bgs = (l, lc1, dev1) := by
  revert hres
  unfold LayoutCache.get
  try dsimp only
  split
  · rename_i layout hit
    intro hres
    simp only [Prod.mk.injEq] at hres
    obtain ⟨h1, h2, h3⟩ := hres
    subst h1
    subst h2
    subst h3
    rw [hit]
  · rename_i hmiss
    intro hres
    simp only [Prod.mk.injEq] at hres
    obtain ⟨h1, h2, h3⟩ := hres
    subst h1
    subst h2
    subst h3
    rw [lookupA_insertA_self]

/-- C5: compiled artifacts are deduplicated by exact key.  (a) A second
`ShaderCache::get` with the same handle and the same definition list (no
intervening invalidation) returns the same shared module with no further
device call, the pair of calls having created at most one module;
(b) a second `LayoutCache::get` with the same bind-group-layout id sequence
returns the same cached layout object and changes nothing; (c) compiling the
same shader under two different definition lists (both previously uncached)
yields two distinct modules. -/
theorem compiled_artifact_deduplication (env : ShaderEnv) (sc : ShaderCache)
    (dev : DeviceState) (pid1 pid2 : CachedPipelineId) (h : Handle)
    (defs defs2 : List String) (lc : LayoutCache) (bgs : List BindGroupLayout) :
    (∀ m sc1 dev1, ShaderCache.get env sc dev pid1 h defs = (.ok m, sc1, dev1) →
       (ShaderCache.get env sc1 dev1 pid2 h defs).1 = .ok m ∧
       (ShaderCache.get env sc1 dev1 pid2 h defs).2.2 = dev1 ∧
       dev1.module_calls ≤ dev.module_calls + 1) ∧
    (∀ l lc1 dev1, LayoutCache.get lc dev bgs = (l, lc1, dev1) →
       LayoutCache.get lc1 dev1 bgs = (l, lc1, dev1)) ∧
    (defs ≠ defs2 →
     lookupA (dataOf sc h).processed_shaders defs = none →
     lookupA (dataOf sc h).processed_shaders defs2 = none →
     ∀ m1 sc1 dev1, ShaderCache.get env sc dev pid1 h defs = (.ok m1, sc1, dev1) →
     ∀ m2 sc2 dev2, ShaderCache.get env sc1 dev1 pid2 h defs2 = (.ok m2, sc2, dev2) →
       m1 ≠ m2) := by
  refine ⟨?_, ?_, ?_⟩
  · intro m sc1 dev1 hres
    obtain ⟨hshaders, ⟨shader, hsh, hcount⟩, hresolved, hcached, _hother, hdev⟩ :=
      get_ok_spec env sc dev pid1 h defs m sc1 dev1 hres
    have hsh1 : lookupA sc1.shaders h = some shader := by rw [hshaders]; exact hsh
    have hcount1 : countAssetImports shader.imports =
        countAssetImports ((dataOf sc1 h).resolved_imports.map Prod.fst) := by
      rw [hresolved]; exact hcount
    obtain ⟨hfst, hsnd⟩ := get_hit_result env sc1 dev1 pid2 h defs shader m hsh1 hcount1 hcached
    refine ⟨hfst, hsnd, ?_⟩
    rcases hdev with ⟨_, rfl⟩ | ⟨_, _, rfl⟩
    · exact Nat.le_succ _
    · exact Nat.le_refl _
  · intro l lc1 dev1 hres
    exact layout_get_stable lc dev bgs l lc1 dev1 hres
  · intro hne hm1 hm2 m1 sc1 dev1 hres1 m2 sc2 dev2 hres2
    obtain ⟨_, _, _, _, hother1, hdev1⟩ := get_ok_spec env sc dev pid1 h defs m1 sc1 dev1 hres1
    rcases hdev1 with ⟨hhit1, _⟩ | ⟨_, hm1', hdev1'⟩
    · rw [hhit1] at hm1
      exact absurd hm1 (by simp)
    · obtain ⟨_, _, _, _, _, hdev2⟩ := get_ok_spec env sc1 dev1 pid2 h defs2 m2 sc2 dev2 hres2
      have hmiss2 : lookupA (dataOf sc1 h).processed_shaders defs2 = none := by
        rw [hother1 defs2 (Ne.symm hne)]
        exact hm2
      rcases hdev2 with ⟨hhit2, _⟩ | ⟨_, hm2', _⟩
      · rw [hhit2] at hmiss2
        exact absurd hmiss2 (by simp)
      · subst hm1'
        subst hm2'
        subst hdev1'
        simp

/-- An environment whose external capabilities always succeed. -/
def exEnvOk : ShaderEnv :=
  { webgl := false, supports_storage_buffers := true,
    process := fun _ _ _ _ => .ok ⟨"ps"⟩,
    get_module_descriptor := fun _ => .ok "md",
    validation_error := fun _ => none }

/-- First compilation of shader 0 under definitions `["A"]`. -/
def exGet1 := ShaderCache.get exEnvOk exSc emptyDeviceState 1 0 ["A"]

/-- Second compilation of shader 0 under definitions `["B"]`. -/
def exGet2 := ShaderCache.get exEnvOk exGet1.2.1 exGet1.2.2 2 0 ["B"]

/-- Witness for C5: two concrete compilations under different definition lists
yield the distinct modules 0 and 1. -/
theorem compiled_artifact_deduplication_witness :
    (exGet1.1 = .ok 0 ∧ exGet2.1 = .ok 1) ∧ (0 : Nat) ≠ 1 :=
  ⟨⟨rfl, rfl⟩,
   (compiled_artifact_deduplication exEnvOk exSc emptyDeviceState 1 2 0 ["A"] ["B"]
      { layouts := [] } []).2.2 (by decide) rfl rfl 0 exGet1.2.1 exGet1.2.2 rfl
      1 exGet2.2.1 exGet2.2.2 rfl⟩

/-! ### C9: termination of the invalidation walk -/

theorem mem_insertA {K V : Type} [DecidableEq K] (l : List (K × V)) (k : K) (v : V)
    (p : K × V) (hp : p ∈ insertA l k v) : p = (k, v) ∨ p ∈ l := by
  induction l with
  | nil => simpa [insertA] using hp
  | cons q t ih =>
    obtain ⟨k0, v0⟩ := q
    by_cases hk : k0 = k
    · subst hk
      simp [insertA] at hp
      rcases hp with hp | hp
      · exact Or.inl (by simp [hp])
      · exact Or.inr (by simp [hp])
    · simp [insertA, hk] at hp
      rcases hp with hp | hp
      · exact Or.inr (by simp [hp])
      · rcases ih hp with h1 | h1
        · exact Or.inl h1
        · exact Or.inr (by simp [h1])

/-- Weight of a worklist under a rank function with dependent-set size bound
`D`: every iteration of `clearLoop` strictly decreases it. -/
def clearMeasure (rank : Handle → Nat) (D : Nat) (wl : List Handle) : Nat :=
  (wl.map fun w => (D + 1) ^ rank w).sum

theorem clearLoop_terminates_aux (rank : Handle → Nat) (D : Nat) :
    ∀ fuel (c : ShaderCache) (wl : List Handle) (acc : List CachedPipelineId),
      (∀ p ∈ c.data, ∀ h' ∈ (p.2 : ShaderData).dependents, rank h' < rank p.1) →
      (∀ p ∈ c.data, ((p.2 : ShaderData).dependents).length ≤ D) →
      clearMeasure rank D wl ≤ fuel →
      (ShaderCache.clearLoop fuel c wl acc).isSome := by
  intro fuel
  induction fuel with
  | zero =>
    intro c wl acc hrank hD hm
    cases wl with
    | nil => simp [ShaderCache.clearLoop]
    | cons w rest =>
      exfalso
      have h1 : 1 ≤ (D + 1) ^ rank w := Nat.one_le_pow _ _ (Nat.succ_pos D)
      simp only [clearMeasure, List.map_cons, List.sum_cons] at hm
      omega
  | succ fuel ih =>
    intro c wl acc hrank hD hm
    cases wl with
    | nil => simp [ShaderCache.clearLoop]
    | cons w rest =>
      rw [ShaderCache.clearLoop]
      rcases hd : lookupA c.data w with _ | d
      · apply ih c rest acc hrank hD
        have h1 : 1 ≤ (D + 1) ^ rank w := Nat.one_le_pow _ _ (Nat.succ_pos D)
        simp only [clearMeasure, List.map_cons, List.sum_cons] at hm ⊢
        omega
      · have hmem : (w, d) ∈ c.data := lookupA_mem hd
        have hrank' : ∀ p ∈ (insertA c.data w { d with processed_shaders := [] }),
            ∀ h' ∈ (p.2 : ShaderData).dependents, rank h' < rank p.1 := by
          intro p hp h' hh'
          rcases mem_insertA _ _ _ _ hp with hp1 | hp1
          · subst hp1
            exact hrank (w, d) hmem h' hh'
          · exact hrank p hp1 h' hh'
        have hD' : ∀ p ∈ (insertA c.data w { d with processed_shaders := [] }),
            ((p.2 : ShaderData).dependents).length ≤ D := by
          intro p hp
          rcases mem_insertA _ _ _ _ hp with hp1 | hp1
          · subst hp1
            exact hD (w, d) hmem
          · exact hD p hp1
        apply ih _ _ _ hrank' hD'
        -- the measure decreases strictly at this pop
        have hdeps : clearMeasure rank D d.dependents + 1 ≤ (D + 1) ^ rank w := by
          rcases hr : rank w with _ | r
          · have hnil : d.dependents = [] := by
              cases hdep : d.dependents with
              | nil => rfl
              | cons x t =>
                exfalso
                have := hrank (w, d) hmem x (by simp [hdep])
                rw [hr] at this
                omega
            simp [clearMeasure, hnil]
          · have hbound : ∀ x ∈ d.dependents.map fun w' => (D + 1) ^ rank w',
                x ≤ (D + 1) ^ r := by
              intro x hx
              rcases List.mem_map.mp hx with ⟨h', hh', rfl⟩
              have hlt := hrank (w, d) hmem h' hh'
              rw [hr] at hlt
              exact Nat.pow_le_pow_right (Nat.succ_pos D) (by omega)
            have hsum := List.sum_le_card_nsmul _ _ hbound
            rw [List.length_map, smul_eq_mul] at hsum
            have hlen := hD (w, d) hmem
            have hpow1 : 1 ≤ (D + 1) ^ r := Nat.one_le_pow _ _ (Nat.succ_pos D)
            have hmul : d.dependents.length * (D + 1) ^ r ≤ D * (D + 1) ^ r :=
              Nat.mul_le_mul_right _ hlen
            have hstep : (D + 1) ^ (r + 1) = D * (D + 1) ^ r + (D + 1) ^ r := by ring
            unfold clearMeasure
            omega
        have hrev : clearMeasure rank D (d.dependents.reverse ++ rest) =
            clearMeasure rank D d.dependents + clearMeasure rank D rest := by
          simp [clearMeasure, List.sum_reverse]
        rw [hrev]
        simp only [clearMeasure, List.map_cons, List.sum_cons] at hm
        unfold clearMeasure
        unfold clearMeasure at hdeps
        omega

/-- Two mutually dependent shaders: a cyclic dependents graph. -/
def cycCache : ShaderCache :=
  { data := [(0, { emptyShaderData with dependents := [1] }),
             (1, { emptyShaderData with dependents := [0] })],
    shaders := [], import_path_shaders := [], waiting_on_import := [] }

theorem cyc_never_finishes : ∀ fuel (acc : List CachedPipelineId),
    ShaderCache.clearLoop fuel cycCache [0] acc = none ∧
    ShaderCache.clearLoop fuel cycCache [1] acc = none := by
  intro fuel
  induction fuel with
  | zero => intro acc; exact ⟨rfl, rfl⟩
  | succ fuel ih =>
    intro acc
    constructor
    · have step : ShaderCache.clearLoop (fuel + 1) cycCache [0] acc =
          ShaderCache.clearLoop fuel cycCache [1] (acc ++ []) := rfl
      rw [step, List.append_nil]
      exact (ih acc).2
    · have step : ShaderCache.clearLoop (fuel + 1) cycCache [1] acc =
          ShaderCache.clearLoop fuel cycCache [0] (acc ++ []) := rfl
      rw [step, List.append_nil]
      exact (ih acc).1

/-- C9: the invalidation walk of `ShaderCache::clear` terminates on every
cache whose dependents relation is acyclic (witnessed by a rank function that
strictly decreases along dependent edges, with dependent-set sizes bounded by
`D`), and acyclicity is needed because the walk keeps no visited set: on the
two-shader cycle `cycCache` the worklist loop never finishes, whatever the
fuel. -/
theorem clear_termination_acyclic (c : ShaderCache) (h : Handle)
    (rank : Handle → Nat) (D : Nat)
    (hrank : ∀ p ∈ c.data, ∀ h' ∈ (p.2 : ShaderData).dependents, rank h' < rank p.1)
    (hD : ∀ p ∈ c.data, ((p.2 : ShaderData).dependents).length ≤ D) :
    (∃ fuel, (ShaderCache.clear fuel c h).isSome) ∧
    (∀ fuel acc, ShaderCache.clearLoop fuel cycCache [0] acc = none) := by
  constructor
  · refine ⟨clearMeasure rank D [h], ?_⟩
    exact clearLoop_terminates_aux rank D _ c [h] [] hrank hD (Nat.le_refl _)
  · intro fuel acc
    exact (cyc_never_finishes fuel acc).1

/-- An acyclic two-shader chain used as the C9 witness. -/
def acyCache : ShaderCache :=
  { data := [(0, { emptyShaderData with dependents := [1] }),
             (1, emptyShaderData)],
    shaders := [], import_path_shaders := [], waiting_on_import := [] }

/-- Witness for C9 at `acyCache` with an explicit rank function. -/
theorem clear_termination_acyclic_witness :
    (∃ fuel, (ShaderCache.clear fuel acyCache 0).isSome) ∧
    (∀ fuel acc, ShaderCache.clearLoop fuel cycCache [0] acc = none) :=
  clear_termination_acyclic acyCache 0 (fun x => if x = 0 then 1 else 0) 1
    (by decide) (by decide)

/-! ### Reachability in the dependents graph (for C2 and C7) -/

/-- Reachability along dependent edges: exactly the shaders the invalidation
walk of `ShaderCache::clear` visits. -/
inductive Reaches (c : ShaderCache) : Handle → Handle → Prop
  | refl (h : Handle) : Reaches c h h
  | step (h h'' : Handle) (d : ShaderData) (h' : Handle) :
      lookupA c.data h = some d → h' ∈ d.dependents → Reaches c h' h'' → Reaches c h h''

/-- The invalidation-relevant view of a dependency record: everything except
the processed-module cache. -/
def graphView (d : ShaderData) :
    List CachedPipelineId × List (ShaderImport × Handle) × List Handle :=
  (d.pipelines, d.resolved_imports, d.dependents)

/-- `c'` has the same data graph as `c`, differing at most in processed-module
caches. -/
def sameGraph (c c' : ShaderCache) : Prop :=
  ∀ x, (lookupA c'.data x).map graphView = (lookupA c.data x).map graphView

theorem sameGraph_refl (c : ShaderCache) : sameGraph c c := fun _ => rfl

theorem sameGraph_trans {a b c : ShaderCache} (h1 : sameGraph a b) (h2 : sameGraph b c) :
    sameGraph a c := fun x => (h2 x).trans (h1 x)

theorem sameGraph_symm {a b : ShaderCache} (h1 : sameGraph a b) : sameGraph b a :=
  fun x => (h1 x).symm

theorem sameGraph_clearStep (c : ShaderCache) (w : Handle) (d : ShaderData)
    (hd : lookupA c.data w = some d) :
    sameGraph c { c with data := insertA c.data w { d with processed_shaders := [] } } := by
  intro x
  by_cases hx : w = x
  · subst hx
    rw [lookupA_insertA_self, hd]
    rfl
  · rw [lookupA_insertA_ne _ _ _ _ hx]

theorem lookup_graphView_of_sameGraph {c c' : ShaderCache} (hg : sameGraph c c')
    {x : Handle} {d : ShaderData} (hd : lookupA c.data x = some d) :
    ∃ d', lookupA c'.data x = some d' ∧ graphView d' = graphView d := by
  have hx := hg x
  rw [hd] at hx
  rcases h' : lookupA c'.data x with _ | d'
  · rw [h'] at hx
    simp at hx
  · rw [h'] at hx
    simp at hx
    exact ⟨d', rfl, hx⟩

theorem lookup_none_of_sameGraph {c c' : ShaderCache} (hg : sameGraph c c')
    {x : Handle} (hx : lookupA c.data x = none) : lookupA c'.data x = none := by
  have h := hg x
  rw [hx] at h
  rcases h2 : lookupA c'.data x with _ | d'
  · rfl
  · rw [h2] at h
    simp at h

theorem reaches_of_sameGraph {c c' : ShaderCache} (hg : sameGraph c c') {w h0 : Handle}
    (hr : Reaches c w h0) : Reaches c' w h0 := by
  induction hr with
  | refl h => exact Reaches.refl h
  | step h h'' d h' hd hdep _hrec ih =>
    obtain ⟨d', hd', hview⟩ := lookup_graphView_of_sameGraph hg hd
    have hdeps : d'.dependents = d.dependents := congrArg (fun t => t.2.2) hview
    exact Reaches.step h h'' d' h' hd' (by rw [hdeps]; exact hdep) ih

theorem pipelinesOf_of_sameGraph {c c' : ShaderCache} (hg : sameGraph c c') (x : Handle) :
    pipelinesOf c' x = pipelinesOf c x := by
  unfold pipelinesOf dataOf
  have h := hg x
  rcases h1 : lookupA c.data x with _ | d
  · rw [h1] at h
    rcases h2 : lookupA c'.data x with _ | d'
    · rfl
    · rw [h2] at h
      simp at h
  · rw [h1] at h
    rcases h2 : lookupA c'.data x with _ | d'
    · rw [h2] at h
      simp at h
    · rw [h2] at h
      simp at h
      exact congrArg (fun t => t.1) h

theorem clearLoop_nil (fuel : Nat) (c : ShaderCache) (acc : List CachedPipelineId) :
    ShaderCache.clearLoop fuel c [] acc = some (c, acc) := by
  cases fuel <;> rfl

theorem clearLoop_sameGraph : ∀ (fuel : Nat) (c : ShaderCache) (wl : List Handle)
    (acc : List CachedPipelineId) (c' : ShaderCache) (res : List CachedPipelineId),
    ShaderCache.clearLoop fuel c wl acc = some (c', res) → sameGraph c c' := by
  intro fuel
  induction fuel with
  | zero =>
    intro c wl acc c' res hres
    cases wl with
    | nil =>
      rw [clearLoop_nil] at hres
      obtain ⟨rfl, rfl⟩ : c = c' ∧ acc = res := by simpa using hres
      exact sameGraph_refl c
    | cons w rest => exact absurd hres (by simp [ShaderCache.clearLoop])
  | succ fuel ih =>
    intro c wl acc c' res hres
    cases wl with
    | nil =>
      rw [clearLoop_nil] at hres
      obtain ⟨rfl, rfl⟩ : c = c' ∧ acc = res := by simpa using hres
      exact sameGraph_refl c
    | cons w rest =>
      rw [ShaderCache.clearLoop] at hres
      rcases hd : lookupA c.data w with _ | d
      · rw [hd] at hres
        exact ih _ _ _ _ _ hres
      · rw [hd] at hres
        exact sameGraph_trans (sameGraph_clearStep c w d hd) (ih _ _ _ _ _ hres)

theorem clearLoop_acc_mem : ∀ (fuel : Nat) (c : ShaderCache) (wl : List Handle)
    (acc : List CachedPipelineId) (c' : ShaderCache) (res : List CachedPipelineId),
    ShaderCache.clearLoop fuel c wl acc = some (c', res) → ∀ x ∈ acc, x ∈ res := by
  intro fuel
  induction fuel with
  | zero =>
    intro c wl acc c' res hres x hx
    cases wl with
    | nil =>
      rw [clearLoop_nil] at hres
      obtain ⟨rfl, rfl⟩ : c = c' ∧ acc = res := by simpa using hres
      exact hx
    | cons w rest => exact absurd hres (by simp [ShaderCache.clearLoop])
  | succ fuel ih =>
    intro c wl acc c' res hres x hx
    cases wl with
    | nil =>
      rw [clearLoop_nil] at hres
      obtain ⟨rfl, rfl⟩ : c = c' ∧ acc = res := by simpa using hres
      exact hx
    | cons w rest =>
      rw [ShaderCache.clearLoop] at hres
      rcases hd : lookupA c.data w with _ | d
      · rw [hd] at hres
        exact ih _ _ _ _ _ hres x hx
      · rw [hd] at hres
        exact ih _ _ _ _ _ hres x (List.mem_append_left _ hx)

theorem clearLoop_sound : ∀ (fuel : Nat) (c : ShaderCache) (wl : List Handle)
    (acc : List CachedPipelineId) (c' : ShaderCache) (res : List CachedPipelineId),
    ShaderCache.clearLoop fuel c wl acc = some (c', res) →
    ∀ pid ∈ res, pid ∈ acc ∨
      ∃ w ∈ wl, ∃ h', Reaches c w h' ∧ pid ∈ pipelinesOf c h' := by
  intro fuel
  induction fuel with
  | zero =>
    intro c wl acc c' res hres pid hpid
    cases wl with
    | nil =>
      rw [clearLoop_nil] at hres
      obtain ⟨rfl, rfl⟩ : c = c' ∧ acc = res := by simpa using hres
      exact Or.inl hpid
    | cons w rest => exact absurd hres (by simp [ShaderCache.clearLoop])
  | succ fuel ih =>
    intro c wl acc c' res hres pid hpid
    cases wl with
    | nil =>
      rw [clearLoop_nil] at hres
      obtain ⟨rfl, rfl⟩ : c = c' ∧ acc = res := by simpa using hres
      exact Or.inl hpid
    | cons w0 rest =>
      rw [ShaderCache.clearLoop] at hres
      rcases hd : lookupA c.data w0 with _ | d
      · rw [hd] at hres
        rcases ih _ _ _ _ _ hres pid hpid with h | ⟨w, hw, h', hr, hp⟩
        · exact Or.inl h
        · exact Or.inr ⟨w, List.mem_cons_of_mem _ hw, h', hr, hp⟩
      · rw [hd] at hres
        have hg : sameGraph c _ := sameGraph_clearStep c w0 d hd
        rcases ih _ _ _ _ _ hres pid hpid with h | ⟨w, hw, h', hr, hp⟩
        · rcases List.mem_append.mp h with h1 | h1
          · exact Or.inl h1
          · refine Or.inr ⟨w0, List.mem_cons_self _ _, w0, Reaches.refl w0, ?_⟩
            simp [pipelinesOf, dataOf, hd]
            exact h1
        · have hr' : Reaches c w h' := reaches_of_sameGraph (sameGraph_symm hg) hr
          have hp' : pid ∈ pipelinesOf c h' := by
            rw [← pipelinesOf_of_sameGraph hg h']
            exact hp
          rcases List.mem_append.mp hw with h1 | h1
          · have hmemdep : w ∈ d.dependents := List.mem_reverse.mp h1
            exact Or.inr ⟨w0, List.mem_cons_self _ _, h',
              Reaches.step w0 h' d w hd hmemdep hr', hp'⟩
          · exact Or.inr ⟨w, List.mem_cons_of_mem _ h1, h', hr', hp'⟩

theorem clearLoop_complete : ∀ (fuel : Nat) (c : ShaderCache) (wl : List Handle)
    (acc : List CachedPipelineId) (c' : ShaderCache) (res : List CachedPipelineId),
    ShaderCache.clearLoop fuel c wl acc = some (c', res) →
    ∀ w ∈ wl, ∀ h', Reaches c w h' → ∀ pid ∈ pipelinesOf c h', pid ∈ res := by
  intro fuel
  induction fuel with
  | zero =>
    intro c wl acc c' res hres w hw h' hr pid hpid
    cases wl with
    | nil => exact absurd hw (by simp)
    | cons w0 rest => exact absurd hres (by simp [ShaderCache.clearLoop])
  | succ fuel ih =>
    intro c wl acc c' res hres w hw h' hr pid hpid
    cases wl with
    | nil => exact absurd hw (by simp)
    | cons w0 rest =>
      rw [ShaderCache.clearLoop] at hres
      rcases hd : lookupA c.data w0 with _ | d
      · rw [hd] at hres
        rcases List.mem_cons.mp hw with h1 | h1
        · subst h1
          cases hr with
          | refl =>
            exfalso
            simp [pipelinesOf, dataOf, hd, emptyShaderData] at hpid
          | step _ _ d0 hmid hd0 hdep hrec =>
            rw [hd] at hd0
            exact absurd hd0 (by simp)
        · exact ih _ _ _ _ _ hres w h1 h' hr pid hpid
      · rw [hd] at hres
        have hg : sameGraph c _ := sameGraph_clearStep c w0 d hd
        rcases List.mem_cons.mp hw with h1 | h1
        · subst h1
          cases hr with
          | refl =>
            have hin : pid ∈ acc ++ d.pipelines := by
              apply List.mem_append_right
              have hpw : pipelinesOf c w = d.pipelines := by
                simp [pipelinesOf, dataOf, hd]
              rw [hpw] at hpid
              exact hpid
            exact clearLoop_acc_mem _ _ _ _ _ _ hres pid hin
          | step _ _ d0 hmid hd0 hdep hrec =>
            rw [hd] at hd0
            injection hd0 with hd0
            subst hd0
            refine ih _ _ _ _ _ hres hmid ?_ h' (reaches_of_sameGraph hg hrec) pid ?_
            · exact List.mem_append_left _ (List.mem_reverse.mpr hdep)
            · rw [pipelinesOf_of_sameGraph hg h']
              exact hpid
        · refine ih _ _ _ _ _ hres w (List.mem_append_right _ h1) h'
            (reaches_of_sameGraph hg hr) pid ?_
          rw [pipelinesOf_of_sameGraph hg h']
          exact hpid

theorem clearLoop_stays_cleared : ∀ (fuel : Nat) (c : ShaderCache) (wl : List Handle)
    (acc : List CachedPipelineId) (c' : ShaderCache) (res : List CachedPipelineId),
    ShaderCache.clearLoop fuel c wl acc = some (c', res) →
    ∀ x d, lookupA c.data x = some d → d.processed_shaders = [] →
    ∀ d', lookupA c'.data x = some d' → d'.processed_shaders = [] := by
  intro fuel
  induction fuel with
  | zero =>
    intro c wl acc c' res hres x d hd hdp d' hd'
    cases wl with
    | nil =>
      rw [clearLoop_nil] at hres
      obtain ⟨rfl, rfl⟩ : c = c' ∧ acc = res := by simpa using hres
      rw [hd] at hd'
      injection hd' with hd'
      subst hd'
      exact hdp
    | cons w rest => exact absurd hres (by simp [ShaderCache.clearLoop])
  | succ fuel ih =>
    intro c wl acc c' res hres x d hd hdp d' hd'
    cases wl with
    | nil =>
      rw [clearLoop_nil] at hres
      obtain ⟨rfl, rfl⟩ : c = c' ∧ acc = res := by simpa using hres
      rw [hd] at hd'
      injection hd' with hd'
      subst hd'
      exact hdp
    | cons w0 rest =>
      rw [ShaderCache.clearLoop] at hres
      rcases hd0 : lookupA c.data w0 with _ | d0
      · rw [hd0] at hres
        exact ih _ _ _ _ _ hres x d hd hdp d' hd'
      · rw [hd0] at hres
        by_cases hx : w0 = x
        · subst hx
          exact ih _ _ _ _ _ hres w0 { d0 with processed_shaders := [] }
            (lookupA_insertA_self _ _ _) rfl d' hd'
        · exact ih _ _ _ _ _ hres x d
            (by rw [lookupA_insertA_ne _ _ _ _ hx]; exact hd) hdp d' hd'

theorem clearLoop_cleared : ∀ (fuel : Nat) (c : ShaderCache) (wl : List Handle)
    (acc : List CachedPipelineId) (c' : ShaderCache) (res : List CachedPipelineId),
    ShaderCache.clearLoop fuel c wl acc = some (c', res) →
    ∀ w ∈ wl, ∀ h', Reaches c w h' →
    ∀ d', lookupA c'.data h' = some d' → d'.processed_shaders = [] := by
  intro fuel
  induction fuel with
  | zero =>
    intro c wl acc c' res hres w hw h' hr d' hd'
    cases wl with
    | nil => exact absurd hw (by simp)
    | cons w0 rest => exact absurd hres (by simp [ShaderCache.clearLoop])
  | succ fuel ih =>
    intro c wl acc c' res hres w hw h' hr d' hd'
    cases wl with
    | nil => exact absurd hw (by simp)
    | cons w0 rest =>
      rw [ShaderCache.clearLoop] at hres
      rcases hd0 : lookupA c.data w0 with _ | d0
      · rw [hd0] at hres
        rcases List.mem_cons.mp hw with h1 | h1
        · subst h1
          cases hr with
          | refl =>
            exfalso
            have hnone : lookupA c'.data w = none :=
              lookup_none_of_sameGraph (clearLoop_sameGraph _ _ _ _ _ _ hres) hd0
            rw [hnone] at hd'
            exact absurd hd' (by simp)
          | step _ _ d1 hmid hd1 hdep hrec =>
            rw [hd0] at hd1
            exact absurd hd1 (by simp)
        · exact ih _ _ _ _ _ hres w h1 h' hr d' hd'
      · rw [hd0] at hres
        have hg : sameGraph c _ := sameGraph_clearStep c w0 d0 hd0
        rcases List.mem_cons.mp hw with h1 | h1
        · subst h1
          cases hr with
          | refl =>
            exact clearLoop_stays_cleared _ _ _ _ _ _ hres w
              { d0 with processed_shaders := [] } (lookupA_insertA_self _ _ _) rfl d' hd'
          | step _ _ d1 hmid hd1 hdep hrec =>
            rw [hd0] at hd1
            injection hd1 with hd1
            subst hd1
            refine ih _ _ _ _ _ hres hmid ?_ h' (reaches_of_sameGraph hg hrec) d' hd'
            exact List.mem_append_left _ (List.mem_reverse.mpr hdep)
        · exact ih _ _ _ _ _ hres w (List.mem_append_right _ h1) h'
            (reaches_of_sameGraph hg hr) d' hd'

/-! ### The registration phase never repopulates processed-module caches -/

/-- Every processed-module cache in `c2` is empty or carried over from `c1`. -/
def processedPreserved (c1 c2 : ShaderCache) : Prop :=
  ∀ x d, lookupA c2.data x = some d →
    d.processed_shaders = [] ∨
    ∃ d1, lookupA c1.data x = some d1 ∧ d.processed_shaders = d1.processed_shaders

theorem processedPreserved_refl (c : ShaderCache) : processedPreserved c c :=
  fun _ d hd => Or.inr ⟨d, hd, rfl⟩

theorem processedPreserved_trans {a b c : ShaderCache} (h1 : processedPreserved a b)
    (h2 : processedPreserved b c) : processedPreserved a c := by
  intro x d hd
  rcases h2 x d hd with h | ⟨d1, hd1, he⟩
  · exact Or.inl h
  · rcases h1 x d1 hd1 with h | ⟨d0, hd0, he0⟩
    · exact Or.inl (he.trans h)
    · exact Or.inr ⟨d0, hd0, he.trans he0⟩

theorem processedPreserved_of_dataEq {c1 c2 : ShaderCache} (h : c2.data = c1.data) :
    processedPreserved c1 c2 := by
  intro x d hd
  rw [h] at hd
  exact Or.inr ⟨d, hd, rfl⟩

theorem processedPreserved_updateData (c : ShaderCache) (h : Handle)
    (f : ShaderData → ShaderData)
    (hf : ∀ d, (f d).processed_shaders = d.processed_shaders) :
    processedPreserved c (c.updateData h f) := by
  intro x d hd
  unfold ShaderCache.updateData at hd
  by_cases hx : h = x
  · subst hx
    rw [lookupA_insertA_self] at hd
    injection hd with hd
    subst hd
    rcases hl : lookupA c.data h with _ | d0
    · left
      rw [hf]
      simp [hl, emptyShaderData]
    · right
      refine ⟨d0, rfl, ?_⟩
      rw [hf]
      simp [hl]
  · rw [lookupA_insertA_ne _ _ _ _ hx] at hd
    exact Or.inr ⟨d, hd, rfl⟩

theorem processedPreserved_resolveWaiting (path : ShaderImport) (handle : Handle)
    (c : ShaderCache) (w : Handle) :
    processedPreserved c (ShaderCache.resolveWaiting path handle c w) := by
  unfold ShaderCache.resolveWaiting
  have h1 : processedPreserved c
      (c.updateData w fun d =>
        { d with resolved_imports := insertA d.resolved_imports path handle }) :=
    processedPreserved_updateData c w _ (fun _ => rfl)
  have h2 : processedPreserved
      (c.updateData w fun d =>
        { d with resolved_imports := insertA d.resolved_imports path handle })
      ((c.updateData w fun d =>
        { d with resolved_imports := insertA d.resolved_imports path handle }).updateData
          handle fun d => { d with dependents := insertNat d.dependents w }) :=
    processedPreserved_updateData _ handle _ (fun _ => rfl)
  exact processedPreserved_trans h1 h2

theorem processedPreserved_resolveImport (handle : Handle) (c : ShaderCache)
    (imp : ShaderImport) :
    processedPreserved c (ShaderCache.resolveImport handle c imp) := by
  unfold ShaderCache.resolveImport
  split
  · rename_i import_handle hlk
    have h1 : processedPreserved c
        (c.updateData handle fun d =>
          { d with resolved_imports := insertA d.resolved_imports imp import_handle }) :=
      processedPreserved_updateData c handle _ (fun _ => rfl)
    have h2 : processedPreserved
        (c.updateData handle fun d =>
          { d with resolved_imports := insertA d.resolved_imports imp import_handle })
        ((c.updateData handle fun d =>
          { d with resolved_imports := insertA d.resolved_imports imp import_handle }).updateData
            import_handle fun d => { d with dependents := insertNat d.dependents handle }) :=
      processedPreserved_updateData _ import_handle _ (fun _ => rfl)
    exact processedPreserved_trans h1 h2
  · exact processedPreserved_of_dataEq rfl

theorem processedPreserved_foldl {α : Type} (f : ShaderCache → α → ShaderCache)
    (hf : ∀ c a, processedPreserved c (f c a)) :
    ∀ (L : List α) (c : ShaderCache), processedPreserved c (L.foldl f c) := by
  intro L
  induction L with
  | nil => intro c; exact processedPreserved_refl c
  | cons a t ih =>
    intro c
    exact processedPreserved_trans (hf c a) (ih (f c a))

theorem processedPreserved_registerImportPath (c : ShaderCache) (handle : Handle)
    (shader : Shader) : processedPreserved c (c.registerImportPath handle shader) := by
  unfold ShaderCache.registerImportPath
  rcases hip : shader.import_path with _ | path
  · exact processedPreserved_refl c
  · try dsimp only
    rcases hws : lookupA c.waiting_on_import path with _ | ws
    · exact processedPreserved_of_dataEq rfl
    · have h1 : processedPreserved c
          { c with import_path_shaders := insertA c.import_path_shaders path handle } :=
        processedPreserved_of_dataEq rfl
      have h2 : processedPreserved
          { c with import_path_shaders := insertA c.import_path_shaders path handle }
          (List.foldl (ShaderCache.resolveWaiting path handle)
            { c with import_path_shaders := insertA c.import_path_shaders path handle } ws) :=
        processedPreserved_foldl _
          (fun c0 a => processedPreserved_resolveWaiting path handle c0 a) ws _
      have h3 : processedPreserved
          (List.foldl (ShaderCache.resolveWaiting path handle)
            { c with import_path_shaders := insertA c.import_path_shaders path handle } ws)
          { List.foldl (ShaderCache.resolveWaiting path handle)
              { c with import_path_shaders := insertA c.import_path_shaders path handle } ws with
            waiting_on_import :=
              insertA (List.foldl (ShaderCache.resolveWaiting path handle)
                { c with import_path_shaders := insertA c.import_path_shaders path handle }
                ws).waiting_on_import path [] } :=
        processedPreserved_of_dataEq rfl
      have hgoal := processedPreserved_trans (processedPreserved_trans h1 h2) h3
      simpa [hws] using hgoal

theorem processedPreserved_setShaderPost (c : ShaderCache) (handle : Handle)
    (shader : Shader) : processedPreserved c (c.setShaderPost handle shader) :=
  processedPreserved_trans
    (processedPreserved_trans
      (processedPreserved_registerImportPath c handle shader)
      (processedPreserved_foldl (ShaderCache.resolveImport handle)
        (fun c0 a => processedPreserved_resolveImport handle c0 a) shader.imports _))
    (processedPreserved_of_dataEq rfl)

/-! ### C2 and C7: what `set_shader` and `remove` return and clear -/

/-- Every returned id is registered against a shader reachable from `h`. -/
def invalidationSound (c : ShaderCache) (h : Handle) (ids : List CachedPipelineId) : Prop :=
  ∀ pid ∈ ids, ∃ h', Reaches c h h' ∧ pid ∈ pipelinesOf c h'

/-- Every id registered against a shader reachable from `h` is returned. -/
def invalidationComplete (c : ShaderCache) (h : Handle) (ids : List CachedPipelineId) : Prop :=
  ∀ h', Reaches c h h' → ∀ pid ∈ pipelinesOf c h', pid ∈ ids

/-- In `c2`, every shader reachable from `h` (in `c`) has an empty
processed-module cache. -/
def invalidationCleared (c : ShaderCache) (h : Handle) (c2 : ShaderCache) : Prop :=
  ∀ h', Reaches c h h' → ∀ d, lookupA c2.data h' = some d → d.processed_shaders = []

theorem clear_spec (fuel : Nat) (c : ShaderCache) (h : Handle) (c1 : ShaderCache)
    (ids : List CachedPipelineId) (hc : ShaderCache.clear fuel c h = some (c1, ids)) :
    invalidationSound c h ids ∧ invalidationComplete c h ids ∧
    invalidationCleared c h c1 := by
  unfold ShaderCache.clear at hc
  refine ⟨?_, ?_, ?_⟩
  · intro pid hpid
    rcases clearLoop_sound _ _ _ _ _ _ hc pid hpid with habs | ⟨w, hw, h', hr, hp⟩
    · exact absurd habs (by simp)
    · rcases List.mem_singleton.mp hw with rfl
      exact ⟨h', hr, hp⟩
  · intro h' hr pid hpid
    exact clearLoop_complete _ _ _ _ _ _ hc h (by simp) h' hr pid hpid
  · intro h' hr d hd
    exact clearLoop_cleared _ _ _ _ _ _ hc h (by simp) h' hr d hd

theorem invalidationCleared_mono {c : ShaderCache} {h : Handle} {c1 c2 : ShaderCache}
    (h1 : invalidationCleared c h c1) (hp : processedPreserved c1 c2) :
    invalidationCleared c h c2 := by
  intro h' hr d hd
  rcases hp h' d hd with he | ⟨d1, hd1, he⟩
  · exact he
  · rw [he]
    exact h1 h' hr d1 hd1

/-- C2 (amended): `ShaderCache::set_shader` and `ShaderCache::remove` return
exactly the pipeline ids registered against the given shader and against every
shader reachable from it in the dependents graph (sound and complete as a
set), and leave the processed-module cache of every reachable shader empty in
the resulting cache; the returned list is however not deduplicated (see the
counterexample), so an id registered against several reachable shaders occurs
several times. -/
theorem set_shader_remove_invalidation_reachable (fuel : Nat) (c : ShaderCache)
    (h : Handle) (s : Shader) :
    (∀ c2 ids, ShaderCache.set_shader fuel c h s = some (c2, ids) →
       invalidationSound c h ids ∧ invalidationComplete c h ids ∧
       invalidationCleared c h c2) ∧
    (∀ c2 ids, ShaderCache.remove fuel c h = some (c2, ids) →
       invalidationSound c h ids ∧ invalidationComplete c h ids ∧
       invalidationCleared c h c2) := by
  constructor
  · intro c2 ids hss
    revert hss
    unfold ShaderCache.set_shader
    rcases hc : ShaderCache.clear fuel c h with _ | ⟨c1, ids1⟩
    · intro hss
      exact absurd hss (by simp)
    · intro hss
      simp only [Option.some.injEq, Prod.mk.injEq] at hss
      obtain ⟨hc2, hids⟩ := hss
      subst hc2
      subst hids
      obtain ⟨hs1, hs2, hs3⟩ := clear_spec fuel c h c1 ids1 hc
      exact ⟨hs1, hs2, invalidationCleared_mono hs3 (processedPreserved_setShaderPost c1 h s)⟩
  · intro c2 ids hrm
    revert hrm
    unfold ShaderCache.remove
    rcases hc : ShaderCache.clear fuel c h with _ | ⟨c1, ids1⟩
    · intro hrm
      exact absurd hrm (by simp)
    · intro hrm
      simp only [Option.some.injEq, Prod.mk.injEq] at hrm
      obtain ⟨hc2, hids⟩ := hrm
      subst hc2
      subst hids
      obtain ⟨hs1, hs2, hs3⟩ := clear_spec fuel c h c1 ids1 hc
      refine ⟨hs1, hs2, invalidationCleared_mono hs3 ?_⟩
      rcases hsh : lookupA c1.shaders h with _ | shader
      · exact processedPreserved_refl c1
      · apply processedPreserved_of_dataEq
        try dsimp only
        rcases shader.import_path with _ | ip
        · rfl
        · rfl

/-- A cache where pipeline 5 is registered against shader 0 and against its
dependent shader 1. -/
def dupCache : ShaderCache :=
  { data := [(0, { pipelines := [5], processed_shaders := [], resolved_imports := [],
                   dependents := [1] }),
             (1, { pipelines := [5], processed_shaders := [], resolved_imports := [],
                   dependents := [] })],
    shaders := [(0, exShader)], import_path_shaders := [], waiting_on_import := [] }

/-- Counterexample for C2: `remove` on `dupCache` returns `[5, 5]` — the same
pipeline id twice — so the returned list is not a deduplicated union. -/
theorem remove_returns_duplicate_pipeline_ids :
    (ShaderCache.remove 3 dupCache 0).map Prod.snd = some [5, 5] ∧
    ¬ ([5, 5] : List Nat).Nodup := by
  constructor
  · decide
  · decide

/-- The concrete outcome of `remove` on `dupCache`. -/
def dupRemoved : ShaderCache × List CachedPipelineId :=
  (ShaderCache.remove 3 dupCache 0).getD (emptyShaderCache, [])

/-- Witness for C2 at `dupCache`. -/
theorem set_shader_remove_invalidation_reachable_witness :
    invalidationSound dupCache 0 dupRemoved.2 ∧
    invalidationComplete dupCache 0 dupRemoved.2 ∧
    invalidationCleared dupCache 0 dupRemoved.1 :=
  (set_shader_remove_invalidation_reachable 3 dupCache 0 exShader).2
    dupRemoved.1 dupRemoved.2 rfl

theorem lookupA_none_of_not_key {K V : Type} [DecidableEq K] (l : List (K × V)) (k : K)
    (hk : k ∉ l.map Prod.fst) : lookupA l k = none := by
  induction l with
  | nil => rfl
  | cons p t ih =>
    obtain ⟨k0, v0⟩ := p
    rw [List.map_cons, List.mem_cons] at hk
    push_neg at hk
    obtain ⟨hk0, hkt⟩ := hk
    simp [lookupA, Ne.symm hk0, ih hkt]

theorem lookupA_eraseA_self {K V : Type} [DecidableEq K] (l : List (K × V)) (k : K)
    (hnd : (l.map Prod.fst).Nodup) : lookupA (eraseA l k) k = none := by
  induction l with
  | nil => rfl
  | cons p t ih =>
    obtain ⟨k0, v0⟩ := p
    rw [List.map_cons, List.nodup_cons] at hnd
    obtain ⟨hk0, hndt⟩ := hnd
    by_cases hk : k0 = k
    · subst hk
      simp only [eraseA, if_pos rfl]
      exact lookupA_none_of_not_key t k0 hk0
    · simp [eraseA, hk, lookupA, ih hndt]

theorem clearLoop_fields : ∀ (fuel : Nat) (c : ShaderCache) (wl : List Handle)
    (acc : List CachedPipelineId) (c' : ShaderCache) (res : List CachedPipelineId),
    ShaderCache.clearLoop fuel c wl acc = some (c', res) →
    c'.shaders = c.shaders ∧ c'.import_path_shaders = c.import_path_shaders ∧
    c'.waiting_on_import = c.waiting_on_import := by
  intro fuel
  induction fuel with
  | zero =>
    intro c wl acc c' res hres
    cases wl with
    | nil =>
      rw [clearLoop_nil] at hres
      obtain ⟨rfl, rfl⟩ : c = c' ∧ acc = res := by simpa using hres
      exact ⟨rfl, rfl, rfl⟩
    | cons w rest => exact absurd hres (by simp [ShaderCache.clearLoop])
  | succ fuel ih =>
    intro c wl acc c' res hres
    cases wl with
    | nil =>
      rw [clearLoop_nil] at hres
      obtain ⟨rfl, rfl⟩ : c = c' ∧ acc = res := by simpa using hres
      exact ⟨rfl, rfl, rfl⟩
    | cons w rest =>
      rw [ShaderCache.clearLoop] at hres
      rcases hd : lookupA c.data w with _ | d
      · rw [hd] at hres
        have hres' := ih _ _ _ _ _ hres
        exact hres'
      · rw [hd] at hres
        have hres' := ih _ _ _ _ _ hres
        exact hres'

/-- C7 (amended): `ShaderCache::remove` performs the invalidation walk and
returns the affected pipeline ids, removes the stored source record,
unregisters the shader's declared import path (if any), and afterwards every
`ShaderCache::get` for that handle fails with `ShaderNotLoaded` — but it does
NOT remove the shader's dependency data: the `data` table is exactly the one
the walk left behind.  The `Nodup` hypotheses are the key-uniqueness
representation invariant of the Rust `HashMap`s. -/
theorem remove_shader_behavior (fuel : Nat) (c c2 : ShaderCache) (h : Handle)
    (ids : List CachedPipelineId) (shader : Shader)
    (hrm : ShaderCache.remove fuel c h = some (c2, ids))
    (hsh : lookupA c.shaders h = some shader)
    (hnd1 : (c.shaders.map Prod.fst).Nodup)
    (hnd2 : (c.import_path_shaders.map Prod.fst).Nodup) :
    (∃ c1, ShaderCache.clear fuel c h = some (c1, ids) ∧
       ∀ x, lookupA c2.data x = lookupA c1.data x) ∧
    lookupA c2.shaders h = none ∧
    (∀ ip, shader.import_path = some ip → lookupA c2.import_path_shaders ip = none) ∧
    (∀ env dev pid defs,
       (ShaderCache.get env c2 dev pid h defs).1 = .error (.ShaderNotLoaded h)) := by
  revert hrm
  unfold ShaderCache.remove
  rcases hc : ShaderCache.clear fuel c h with _ | ⟨c1, ids1⟩
  · intro hrm
    exact absurd hrm (by simp)
  · intro hrm
    simp only [Option.some.injEq, Prod.mk.injEq] at hrm
    obtain ⟨hc2, hids⟩ := hrm
    subst hids
    obtain ⟨hfs, hfi, hfw⟩ := clearLoop_fields _ _ _ _ _ _ hc
    have hsh1 : lookupA c1.shaders h = some shader := by
      rw [hfs]
      exact hsh
    have hnd1' : (c1.shaders.map Prod.fst).Nodup := by
      rw [hfs]
      exact hnd1
    have hnd2' : (c1.import_path_shaders.map Prod.fst).Nodup := by
      rw [hfi]
      exact hnd2
    subst hc2
    simp only [hsh1]
    have hnone : lookupA (eraseA c1.shaders h) h = none :=
      lookupA_eraseA_self _ _ hnd1'
    rcases hip : shader.import_path with _ | ip
    · refine ⟨⟨c1, rfl, fun x => rfl⟩, hnone, ?_, ?_⟩
      · intro ip' hip'
        exact absurd hip' (by simp)
      · intro env dev pid defs
        unfold ShaderCache.get
        simp [hnone]
    · refine ⟨⟨c1, rfl, fun x => rfl⟩, hnone, ?_, ?_⟩
      · intro ip' hip'
        injection hip' with hip'
        subst hip'
        exact lookupA_eraseA_self _ _ hnd2'
      · intro env dev pid defs
        unfold ShaderCache.get
        simp [hnone]

/-- Counterexample for C7: after removing shader 0, its dependency record is
still present (pipelines, resolved imports and dependents intact) — `remove`
never touches the `data` table beyond the processed-module clearing of the
walk. -/
theorem remove_keeps_dependency_data :
    (ShaderCache.remove 3 dupCache 0).map (fun p => lookupA p.1.data 0) =
      some (some { pipelines := [5], processed_shaders := [], resolved_imports := [],
                   dependents := [1] }) := by
  decide

/-- Witness for C7 at `dupCache`. -/
theorem remove_shader_behavior_witness :
    (∃ c1, ShaderCache.clear 3 dupCache 0 = some (c1, dupRemoved.2) ∧
       ∀ x, lookupA dupRemoved.1.data x = lookupA c1.data x) ∧
    lookupA dupRemoved.1.shaders 0 = none ∧
    (∀ ip, exShader.import_path = some ip →
       lookupA dupRemoved.1.import_path_shaders ip = none) ∧
    (∀ env dev pid defs,
       (ShaderCache.get env dupRemoved.1 dev pid 0 defs).1 =
         .error (.ShaderNotLoaded 0)) :=
  remove_shader_behavior 3 dupCache dupRemoved.1 0 dupRemoved.2 exShader rfl rfl
    (by decide) (by decide)

/-! ### C4: import resolution is order-independent -/

theorem dataOf_updateData_self (c : ShaderCache) (h : Handle) (f : ShaderData → ShaderData) :
    dataOf (c.updateData h f) h = f (dataOf c h) := by
  unfold ShaderCache.updateData dataOf
  rw [lookupA_insertA_self]
  rfl

theorem dataOf_updateData_ne (c : ShaderCache) (h : Handle) (f : ShaderData → ShaderData)
    (x : Handle) (hx : h ≠ x) : dataOf (c.updateData h f) x = dataOf c x := by
  unfold ShaderCache.updateData dataOf
  rw [lookupA_insertA_ne _ _ _ _ hx]

theorem resolvedOf_of_sameGraph {c c' : ShaderCache} (hg : sameGraph c c') (x : Handle) :
    (dataOf c' x).resolved_imports = (dataOf c x).resolved_imports := by
  unfold dataOf
  have h := hg x
  rcases h1 : lookupA c.data x with _ | d
  · rw [h1] at h
    rcases h2 : lookupA c'.data x with _ | d'
    · rfl
    · rw [h2] at h
      simp at h
  · rw [h1] at h
    rcases h2 : lookupA c'.data x with _ | d'
    · rw [h2] at h
      simp at h
    · rw [h2] at h
      simp at h
      exact congrArg (fun t => t.2.1) h

theorem foldl_pres {α : Type} (f : ShaderCache → α → ShaderCache) (P : ShaderCache → Prop) :
    ∀ (L : List α) (c : ShaderCache),
      (∀ c0 a, a ∈ L → P c0 → P (f c0 a)) → P c → P (L.foldl f c) := by
  intro L
  induction L with
  | nil =>
    intro c _ h
    exact h
  | cons x t ih =>
    intro c hs h
    exact ih (f c x) (fun c0 a ha => hs c0 a (List.mem_cons_of_mem _ ha))
      (hs c x (List.mem_cons_self _ _) h)

theorem foldl_mem_est {α : Type} (f : ShaderCache → α → ShaderCache)
    (P : ShaderCache → α → Prop) :
    ∀ (L : List α) (c : ShaderCache),
      (∀ c0 a, a ∈ L → P (f c0 a) a) →
      (∀ c0 a b, a ∈ L → P c0 b → P (f c0 a) b) →
      ∀ a ∈ L, P (L.foldl f c) a := by
  intro L
  induction L with
  | nil =>
    intro c _ _ a ha
    exact absurd ha (by simp)
  | cons x t ih =>
    intro c hest hpres a ha
    rcases List.mem_cons.mp ha with rfl | ha
    · have h0 : P (f c a) a := hest c a (List.mem_cons_self _ _)
      exact foldl_pres f (fun c0 => P c0 a) t (f c a)
        (fun c0 b hb hp => hpres c0 b a (List.mem_cons_of_mem _ hb) hp) h0
    · exact ih (f c x) (fun c0 b hb => hest c0 b (List.mem_cons_of_mem _ hb))
        (fun c0 b b2 hb hp => hpres c0 b b2 (List.mem_cons_of_mem _ hb) hp) a ha

theorem resolveWaiting_est (p : ShaderImport) (hb : Handle) (c : ShaderCache) (w : Handle) :
    lookupA (dataOf (ShaderCache.resolveWaiting p hb c w) w).resolved_imports p = some hb := by
  unfold ShaderCache.resolveWaiting
  by_cases hw : hb = w
  · subst hw
    rw [dataOf_updateData_self, dataOf_updateData_self]
    exact lookupA_insertA_self _ _ _
  · rw [dataOf_updateData_ne _ _ _ _ hw, dataOf_updateData_self]
    exact lookupA_insertA_self _ _ _

theorem resolveWaiting_pres_resolved (p : ShaderImport) (hb : Handle) (c : ShaderCache)
    (w u : Handle)
    (hu : lookupA (dataOf c u).resolved_imports p = some hb) :
    lookupA (dataOf (ShaderCache.resolveWaiting p hb c w) u).resolved_imports p = some hb := by
  unfold ShaderCache.resolveWaiting
  by_cases hbu : hb = u
  · subst hbu
    rw [dataOf_updateData_self]
    by_cases hwu : w = hb
    · subst hwu
      rw [dataOf_updateData_self]
      exact lookupA_insertA_self _ _ _
    · rw [dataOf_updateData_ne _ _ _ _ hwu]
      exact hu
  · rw [dataOf_updateData_ne _ _ _ _ hbu]
    by_cases hwu : w = u
    · subst hwu
      rw [dataOf_updateData_self]
      exact lookupA_insertA_self _ _ _
    · rw [dataOf_updateData_ne _ _ _ _ hwu]
      exact hu

theorem resolveWaiting_est_dependent (p : ShaderImport) (hb : Handle) (c : ShaderCache)
    (w : Handle) :
    w ∈ (dataOf (ShaderCache.resolveWaiting p hb c w) hb).dependents := by
  unfold ShaderCache.resolveWaiting
  rw [dataOf_updateData_self]
  exact mem_insertNat_self _ _

theorem resolveWaiting_pres_dependent (p : ShaderImport) (hb : Handle) (c : ShaderCache)
    (w u : Handle) (hu : u ∈ (dataOf c hb).dependents) :
    u ∈ (dataOf (ShaderCache.resolveWaiting p hb c w) hb).dependents := by
  unfold ShaderCache.resolveWaiting
  rw [dataOf_updateData_self]
  apply mem_insertNat_of_mem
  by_cases hwb : w = hb
  · subst hwb
    rw [dataOf_updateData_self]
    exact hu
  · rw [dataOf_updateData_ne _ _ _ _ hwb]
    exact hu

theorem resolveWaiting_pres_exact (p : ShaderImport) (hb : Handle) (c : ShaderCache)
    (w x : Handle)
    (hx : (dataOf c x).resolved_imports = [] ∨ (dataOf c x).resolved_imports = [(p, hb)]) :
    (dataOf (ShaderCache.resolveWaiting p hb c w) x).resolved_imports = [] ∨
    (dataOf (ShaderCache.resolveWaiting p hb c w) x).resolved_imports = [(p, hb)] := by
  unfold ShaderCache.resolveWaiting
  by_cases hbx : hb = x
  · subst hbx
    rw [dataOf_updateData_self]
    by_cases hwx : w = hb
    · subst hwx
      rw [dataOf_updateData_self]
      rcases hx with hx | hx <;> rw [hx] <;> simp [insertA]
    · rw [dataOf_updateData_ne _ _ _ _ hwx]
      exact hx
  · rw [dataOf_updateData_ne _ _ _ _ hbx]
    by_cases hwx : w = x
    · subst hwx
      rw [dataOf_updateData_self]
      rcases hx with hx | hx <;> rw [hx] <;> simp [insertA]
    · rw [dataOf_updateData_ne _ _ _ _ hwx]
      exact hx

theorem resolveWaiting_pres_empty (p : ShaderImport) (hb : Handle) (c : ShaderCache)
    (w x : Handle) (hwx : w ≠ x)
    (hx : (dataOf c x).resolved_imports = []) :
    (dataOf (ShaderCache.resolveWaiting p hb c w) x).resolved_imports = [] := by
  unfold ShaderCache.resolveWaiting
  by_cases hbx : hb = x
  · subst hbx
    rw [dataOf_updateData_self, dataOf_updateData_ne _ _ _ _ hwx]
    exact hx
  · rw [dataOf_updateData_ne _ _ _ _ hbx, dataOf_updateData_ne _ _ _ _ hwx]
    exact hx

theorem resolveWaiting_shaders (p : ShaderImport) (hb : Handle) (c : ShaderCache)
    (w : Handle) : (ShaderCache.resolveWaiting p hb c w).shaders = c.shaders := rfl

theorem resolveWaiting_ipaths (p : ShaderImport) (hb : Handle) (c : ShaderCache)
    (w : Handle) :
    (ShaderCache.resolveWaiting p hb c w).import_path_shaders = c.import_path_shaders := rfl

theorem resolveWaiting_waiting (p : ShaderImport) (hb : Handle) (c : ShaderCache)
    (w : Handle) :
    (ShaderCache.resolveWaiting p hb c w).waiting_on_import = c.waiting_on_import := rfl

theorem resolveImport_ipaths (hb : Handle) (c : ShaderCache) (imp : ShaderImport) :
    (ShaderCache.resolveImport hb c imp).import_path_shaders = c.import_path_shaders := by
  unfold ShaderCache.resolveImport
  split <;> rfl

theorem resolveImport_shaders (hb : Handle) (c : ShaderCache) (imp : ShaderImport) :
    (ShaderCache.resolveImport hb c imp).shaders = c.shaders := by
  unfold ShaderCache.resolveImport
  split <;> rfl

theorem resolveImport_waiting (hb : Handle) (c : ShaderCache) (imp p : ShaderImport)
    (hprov : lookupA c.import_path_shaders p = some hb)
    (hw : lookupA c.waiting_on_import p = some []) :
    lookupA (ShaderCache.resolveImport hb c imp).waiting_on_import p = some [] := by
  unfold ShaderCache.resolveImport
  split
  · exact hw
  · rename_i hnone
    have hne : imp ≠ p := by
      intro he
      subst he
      rw [hnone] at hprov
      exact absurd hprov (by simp)
    dsimp only
    rw [lookupA_insertA_ne _ _ _ _ hne]
    exact hw

theorem resolveImport_pres_resolved (hb : Handle) (c : ShaderCache) (imp p : ShaderImport)
    (u : Handle)
    (hprov : lookupA c.import_path_shaders p = some hb)
    (hu : lookupA (dataOf c u).resolved_imports p = some hb) :
    lookupA (dataOf (ShaderCache.resolveImport hb c imp) u).resolved_imports p = some hb := by
  unfold ShaderCache.resolveImport
  split
  · rename_i import_handle hih
    have hstep2 : ∀ (cm : ShaderCache),
        (dataOf (cm.updateData import_handle fun d =>
            { d with dependents := insertNat d.dependents hb }) u).resolved_imports =
        (dataOf cm u).resolved_imports := by
      intro cm
      by_cases hihu : import_handle = u
      · rw [hihu, dataOf_updateData_self]
      · rw [dataOf_updateData_ne _ _ _ _ hihu]
    rw [hstep2]
    by_cases hbu : hb = u
    · rw [← hbu] at hu ⊢
      rw [dataOf_updateData_self]
      by_cases hip : imp = p
      · rw [hip] at hih
        rw [hih] at hprov
        injection hprov with hprov
        rw [hip, hprov]
        exact lookupA_insertA_self _ _ _
      · rw [lookupA_insertA_ne _ _ _ _ hip]
        exact hu
    · rw [dataOf_updateData_ne _ _ _ _ hbu]
      exact hu
  · exact hu

theorem resolveImport_pres_dependent (hb : Handle) (c : ShaderCache) (imp : ShaderImport)
    (u : Handle) (hu : u ∈ (dataOf c hb).dependents) :
    u ∈ (dataOf (ShaderCache.resolveImport hb c imp) hb).dependents := by
  unfold ShaderCache.resolveImport
  split
  · rename_i import_handle hih
    by_cases hihb : import_handle = hb
    · subst hihb
      rw [dataOf_updateData_self]
      apply mem_insertNat_of_mem
      rw [dataOf_updateData_self]
      exact hu
    · rw [dataOf_updateData_ne _ _ _ _ hihb, dataOf_updateData_self]
      exact hu
  · exact hu

theorem resolveImport_pres_exact (hb : Handle) (c : ShaderCache) (imp : ShaderImport)
    (x : Handle) (hbx : hb ≠ x) (r : List (ShaderImport × Handle))
    (hx : (dataOf c x).resolved_imports = r) :
    (dataOf (ShaderCache.resolveImport hb c imp) x).resolved_imports = r := by
  unfold ShaderCache.resolveImport
  split
  · rename_i import_handle hih
    by_cases hihx : import_handle = x
    · subst hihx
      rw [dataOf_updateData_self]
      rw [dataOf_updateData_ne _ _ _ _ hbx]
      exact hx
    · rw [dataOf_updateData_ne _ _ _ _ hihx, dataOf_updateData_ne _ _ _ _ hbx]
      exact hx
  · exact hx

theorem mem_waiting_insert (l : List (ShaderImport × List Handle)) (k : ShaderImport)
    (h : Handle) (old : List Handle) :
    h ∈ (lookupA (insertA l k (old ++ [h])) k).getD [] := by
  rw [lookupA_insertA_self]
  simp

theorem registerImportPath_fresh_facts
    (cache0 : ShaderCache) (hC : Handle) (shaderC : Shader) (s : String)
    (hprov0 : lookupA cache0.import_path_shaders (ShaderImport.assetPath s) = none)
    (hCpath : shaderC.import_path ≠ some (ShaderImport.assetPath s))
    (hCdata : lookupA cache0.data hC = none)
    (hCwait : ∀ q l, lookupA cache0.waiting_on_import q = some l → hC ∉ l) :
    lookupA (cache0.registerImportPath hC shaderC).import_path_shaders
      (ShaderImport.assetPath s) = none ∧
    (dataOf (cache0.registerImportPath hC shaderC) hC).resolved_imports = [] ∧
    (cache0.registerImportPath hC shaderC).shaders = cache0.shaders := by
  unfold ShaderCache.registerImportPath
  rcases hip : shaderC.import_path with _ | pathC
  · refine ⟨hprov0, ?_, rfl⟩
    simp [dataOf, hCdata, emptyShaderData]
  · have hpne : pathC ≠ ShaderImport.assetPath s := by
      intro he
      apply hCpath
      rw [hip, he]
    try dsimp only
    rcases hws : lookupA cache0.waiting_on_import pathC with _ | ws0
    · refine ⟨?_, ?_, rfl⟩
      · have : lookupA (insertA cache0.import_path_shaders pathC hC)
            (ShaderImport.assetPath s) = none := by
          rw [lookupA_insertA_ne _ _ _ _ hpne]
          exact hprov0
        exact this
      · simp [dataOf, hCdata, emptyShaderData]
    · have hCnotin : hC ∉ ws0 := fun hmem => hCwait pathC ws0 hws hmem
      have hfold_ip : (List.foldl (ShaderCache.resolveWaiting pathC hC)
          { cache0 with
            import_path_shaders := insertA cache0.import_path_shaders pathC hC }
          ws0).import_path_shaders = insertA cache0.import_path_shaders pathC hC := by
        apply foldl_pres (ShaderCache.resolveWaiting pathC hC)
          (fun c0 => c0.import_path_shaders = insertA cache0.import_path_shaders pathC hC)
          ws0 _ ?_ rfl
        intro c0 a _ hP
        rw [resolveWaiting_ipaths]
        exact hP
      have hfold_res : (dataOf (List.foldl (ShaderCache.resolveWaiting pathC hC)
          { cache0 with
            import_path_shaders := insertA cache0.import_path_shaders pathC hC }
          ws0) hC).resolved_imports = [] := by
        apply foldl_pres (ShaderCache.resolveWaiting pathC hC)
          (fun c0 => (dataOf c0 hC).resolved_imports = []) ws0 _ ?_ ?_
        · intro c0 a ha hP
          exact resolveWaiting_pres_empty pathC hC c0 a hC
            (fun he => hCnotin (he ▸ ha)) hP
        · simp [dataOf, hCdata, emptyShaderData]
      have hfold_sh : (List.foldl (ShaderCache.resolveWaiting pathC hC)
          { cache0 with
            import_path_shaders := insertA cache0.import_path_shaders pathC hC }
          ws0).shaders = cache0.shaders := by
        apply foldl_pres (ShaderCache.resolveWaiting pathC hC)
          (fun c0 => c0.shaders = cache0.shaders) ws0 _ ?_ ?_
        · intro c0 a _ hP
          rw [resolveWaiting_shaders]
          exact hP
        · rfl
      refine ⟨?_, ?_, ?_⟩
      · show lookupA (List.foldl (ShaderCache.resolveWaiting pathC hC)
            { cache0 with
              import_path_shaders := insertA cache0.import_path_shaders pathC hC }
            ws0).import_path_shaders (ShaderImport.assetPath s) = none
        rw [hfold_ip, lookupA_insertA_ne _ _ _ _ hpne]
        exact hprov0
      · exact hfold_res
      · exact hfold_sh

theorem get_import_not_yet (env : ShaderEnv) (c : ShaderCache) (dev : DeviceState)
    (pid : CachedPipelineId) (h : Handle) (defs : List String) (shader : Shader)
    (hsh : lookupA c.shaders h = some shader)
    (hcnt : countAssetImports shader.imports ≠
      countAssetImports ((dataOf c h).resolved_imports.map Prod.fst)) :
    (ShaderCache.get env c dev pid h defs).1 = .error .ShaderImportNotYetAvailable := by
  unfold ShaderCache.get
  rw [hsh]
  try dsimp only
  rw [if_pos (by simpa [dataOf] using hcnt)]

theorem get_resolved_not_retryable (env : ShaderEnv) (c : ShaderCache) (dev : DeviceState)
    (pid : CachedPipelineId) (h : Handle) (defs : List String) (shader : Shader)
    (hsh : lookupA c.shaders h = some shader)
    (hcnt : countAssetImports shader.imports =
      countAssetImports ((dataOf c h).resolved_imports.map Prod.fst)) :
    (ShaderCache.get env c dev pid h defs).1 ≠ .error .ShaderImportNotYetAvailable ∧
    ∀ h0, (ShaderCache.get env c dev pid h defs).1 ≠ .error (.ShaderNotLoaded h0) := by
  unfold ShaderCache.get
  rw [hsh]
  try dsimp only
  rw [if_neg (by simpa [dataOf] using hcnt)]
  constructor
  · split
    · simp
    · split
      · simp
      · split
        · simp
        · split <;> simp
  · intro h0
    split
    · simp
    · split
      · simp
      · split
        · simp
        · split <;> simp

theorem setShaderPost_waiting_facts
    (cache0 : ShaderCache) (hC : Handle) (shaderC : Shader) (s : String)
    (hprov0 : lookupA cache0.import_path_shaders (ShaderImport.assetPath s) = none)
    (hCimp : shaderC.imports = [ShaderImport.assetPath s])
    (hCpath : shaderC.import_path ≠ some (ShaderImport.assetPath s))
    (hCdata : lookupA cache0.data hC = none)
    (hCwait : ∀ q l, lookupA cache0.waiting_on_import q = some l → hC ∉ l) :
    lookupA (cache0.setShaderPost hC shaderC).shaders hC = some shaderC ∧
    (dataOf (cache0.setShaderPost hC shaderC) hC).resolved_imports = [] ∧
    lookupA (cache0.setShaderPost hC shaderC).import_path_shaders
      (ShaderImport.assetPath s) = none ∧
    hC ∈ (lookupA (cache0.setShaderPost hC shaderC).waiting_on_import
      (ShaderImport.assetPath s)).getD [] := by
  obtain ⟨hA1, hA2, hA3⟩ :=
    registerImportPath_fresh_facts cache0 hC shaderC s hprov0 hCpath hCdata hCwait
  unfold ShaderCache.setShaderPost
  rw [hCimp]
  simp only [List.foldl_cons, List.foldl_nil]
  unfold ShaderCache.resolveImport
  rw [hA1]
  try dsimp only
  refine ⟨lookupA_insertA_self _ _ _, hA2, hA1, ?_⟩
  exact mem_waiting_insert _ _ _ _

theorem setShaderPost_provider_facts
    (c1 : ShaderCache) (hB : Handle) (shaderB : Shader) (s : String) (ws : List Handle)
    (hBpath : shaderB.import_path = some (ShaderImport.assetPath s))
    (hws : lookupA c1.waiting_on_import (ShaderImport.assetPath s) = some ws) :
    (∀ w ∈ ws,
       lookupA (dataOf (c1.setShaderPost hB shaderB) w).resolved_imports
         (ShaderImport.assetPath s) = some hB) ∧
    (∀ w ∈ ws, w ∈ (dataOf (c1.setShaderPost hB shaderB) hB).dependents) ∧
    lookupA (c1.setShaderPost hB shaderB).waiting_on_import
      (ShaderImport.assetPath s) = some [] ∧
    (c1.setShaderPost hB shaderB).shaders = insertA c1.shaders hB shaderB ∧
    (∀ x, hB ≠ x → x ∈ ws → (dataOf c1 x).resolved_imports = [] →
       (dataOf (c1.setShaderPost hB shaderB) x).resolved_imports =
         [(ShaderImport.assetPath s, hB)]) := by
  have hD_ip : (List.foldl
      (ShaderCache.resolveWaiting (ShaderImport.assetPath s) hB)
      { c1 with import_path_shaders := insertA c1.import_path_shaders (ShaderImport.assetPath s) hB }
      ws).import_path_shaders =
      insertA c1.import_path_shaders (ShaderImport.assetPath s) hB := by
    apply foldl_pres (ShaderCache.resolveWaiting (ShaderImport.assetPath s) hB)
      (fun c0 => c0.import_path_shaders =
        insertA c1.import_path_shaders (ShaderImport.assetPath s) hB) ws _ ?_ ?_
    · intro c0 a _ hP
      rw [resolveWaiting_ipaths]
      exact hP
    · rfl
  have hD_sh : (List.foldl
      (ShaderCache.resolveWaiting (ShaderImport.assetPath s) hB)
      { c1 with import_path_shaders := insertA c1.import_path_shaders (ShaderImport.assetPath s) hB }
      ws).shaders = c1.shaders := by
    apply foldl_pres (ShaderCache.resolveWaiting (ShaderImport.assetPath s) hB)
      (fun c0 => c0.shaders = c1.shaders) ws _ ?_ ?_
    · intro c0 a _ hP
      rw [resolveWaiting_shaders]
      exact hP
    · rfl
  have hD_res : ∀ w ∈ ws,
      lookupA (dataOf (List.foldl
        (ShaderCache.resolveWaiting (ShaderImport.assetPath s) hB)
        { c1 with import_path_shaders := insertA c1.import_path_shaders (ShaderImport.assetPath s) hB }
        ws) w).resolved_imports (ShaderImport.assetPath s) = some hB := by
    apply foldl_mem_est (ShaderCache.resolveWaiting (ShaderImport.assetPath s) hB)
      (fun c0 w => lookupA (dataOf c0 w).resolved_imports
        (ShaderImport.assetPath s) = some hB) ws _ ?_ ?_
    · intro c0 a _
      exact resolveWaiting_est _ _ _ _
    · intro c0 a b _ hP
      exact resolveWaiting_pres_resolved _ _ _ _ _ hP
  have hD_dep : ∀ w ∈ ws,
      w ∈ (dataOf (List.foldl
        (ShaderCache.resolveWaiting (ShaderImport.assetPath s) hB)
        { c1 with import_path_shaders := insertA c1.import_path_shaders (ShaderImport.assetPath s) hB }
        ws) hB).dependents := by
    apply foldl_mem_est (ShaderCache.resolveWaiting (ShaderImport.assetPath s) hB)
      (fun c0 w => w ∈ (dataOf c0 hB).dependents) ws _ ?_ ?_
    · intro c0 a _
      exact resolveWaiting_est_dependent _ _ _ _
    · intro c0 a b _ hP
      exact resolveWaiting_pres_dependent _ _ _ _ _ hP
  have hE := foldl_pres (ShaderCache.resolveImport hB)
    (fun c0 =>
      lookupA c0.import_path_shaders (ShaderImport.assetPath s) = some hB ∧
      lookupA c0.waiting_on_import (ShaderImport.assetPath s) = some [] ∧
      (∀ w ∈ ws, lookupA (dataOf c0 w).resolved_imports
        (ShaderImport.assetPath s) = some hB) ∧
      (∀ w ∈ ws, w ∈ (dataOf c0 hB).dependents) ∧
      c0.shaders = c1.shaders)
    shaderB.imports
    { List.foldl (ShaderCache.resolveWaiting (ShaderImport.assetPath s) hB)
        { c1 with import_path_shaders := insertA c1.import_path_shaders (ShaderImport.assetPath s) hB } ws with
      waiting_on_import := (insertA
        (List.foldl (ShaderCache.resolveWaiting (ShaderImport.assetPath s) hB)
          { c1 with import_path_shaders := insertA c1.import_path_shaders (ShaderImport.assetPath s) hB }
          ws).waiting_on_import (ShaderImport.assetPath s) []) }
    (by
      intro c0 a _ hP
      refine ⟨?_, ?_, ?_, ?_, ?_⟩
      · rw [resolveImport_ipaths]
        exact hP.1
      · exact resolveImport_waiting hB c0 a (ShaderImport.assetPath s) hP.1 hP.2.1
      · intro w hw
        exact resolveImport_pres_resolved hB c0 a (ShaderImport.assetPath s) w hP.1
          (hP.2.2.1 w hw)
      · intro w hw
        exact resolveImport_pres_dependent hB c0 a w (hP.2.2.2.1 w hw)
      · rw [resolveImport_shaders]
        exact hP.2.2.2.2)
    (by
      refine ⟨?_, lookupA_insertA_self _ _ _, hD_res, hD_dep, hD_sh⟩
      show lookupA (List.foldl (ShaderCache.resolveWaiting (ShaderImport.assetPath s) hB)
        { c1 with import_path_shaders := insertA c1.import_path_shaders (ShaderImport.assetPath s) hB }
        ws).import_path_shaders (ShaderImport.assetPath s) = some hB
      rw [hD_ip]
      exact lookupA_insertA_self _ _ _)
  unfold ShaderCache.setShaderPost ShaderCache.registerImportPath
  rw [hBpath]
  try dsimp only
  rw [hws]
  try dsimp only
  refine ⟨?_, ?_, ?_, ?_, ?_⟩
  · intro w hw
    exact hE.2.2.1 w hw
  · intro w hw
    exact hE.2.2.2.1 w hw
  · exact hE.2.1
  · have hsh := hE.2.2.2.2
    try dsimp only
    rw [hsh]
  · intro x hBx hxws hx0
    have hstart : (dataOf { c1 with import_path_shaders := insertA c1.import_path_shaders (ShaderImport.assetPath s) hB }
        x).resolved_imports = [] := hx0
    have hD_ex : (dataOf (List.foldl
        (ShaderCache.resolveWaiting (ShaderImport.assetPath s) hB)
        { c1 with import_path_shaders := insertA c1.import_path_shaders (ShaderImport.assetPath s) hB }
        ws) x).resolved_imports = [] ∨
        (dataOf (List.foldl
        (ShaderCache.resolveWaiting (ShaderImport.assetPath s) hB)
        { c1 with import_path_shaders := insertA c1.import_path_shaders (ShaderImport.assetPath s) hB }
        ws) x).resolved_imports = [(ShaderImport.assetPath s, hB)] := by
      apply foldl_pres (ShaderCache.resolveWaiting (ShaderImport.assetPath s) hB)
        (fun c0 => (dataOf c0 x).resolved_imports = [] ∨
          (dataOf c0 x).resolved_imports = [(ShaderImport.assetPath s, hB)]) ws _ ?_ ?_
      · intro c0 a _ hP
        exact resolveWaiting_pres_exact _ _ _ _ _ hP
      · exact Or.inl hstart
    have hD_exact : (dataOf (List.foldl
        (ShaderCache.resolveWaiting (ShaderImport.assetPath s) hB)
        { c1 with import_path_shaders := insertA c1.import_path_shaders (ShaderImport.assetPath s) hB }
        ws) x).resolved_imports = [(ShaderImport.assetPath s, hB)] := by
      rcases hD_ex with hD_ex | hD_ex
      · exfalso
        have := hD_res x hxws
        rw [hD_ex] at this
        simp [lookupA] at this
      · exact hD_ex
    have hfin := foldl_pres (ShaderCache.resolveImport hB)
      (fun c0 => (dataOf c0 x).resolved_imports = [(ShaderImport.assetPath s, hB)])
      shaderB.imports
      { List.foldl (ShaderCache.resolveWaiting (ShaderImport.assetPath s) hB)
          { c1 with import_path_shaders := insertA c1.import_path_shaders (ShaderImport.assetPath s) hB } ws with
        waiting_on_import := (insertA
          (List.foldl
            (ShaderCache.resolveWaiting (ShaderImport.assetPath s) hB)
            { c1 with import_path_shaders :=
                insertA c1.import_path_shaders (ShaderImport.assetPath s) hB }
            ws).waiting_on_import (ShaderImport.assetPath s) []) }
      (by
        intro c0 a _ hP
        exact resolveImport_pres_exact hB c0 a x hBx _ hP)
      hD_exact
    exact hfin

theorem clear_nodata (fuel : Nat) (c : ShaderCache) (h : Handle) (c' : ShaderCache)
    (ids : List CachedPipelineId) (hd : lookupA c.data h = none)
    (hc : ShaderCache.clear fuel c h = some (c', ids)) : c' = c ∧ ids = [] := by
  cases fuel with
  | zero => exact absurd hc (by simp [ShaderCache.clear, ShaderCache.clearLoop])
  | succ f =>
    unfold ShaderCache.clear at hc
    rw [ShaderCache.clearLoop, hd, clearLoop_nil] at hc
    simp only [Option.some.injEq, Prod.mk.injEq] at hc
    exact ⟨hc.1.symm, hc.2.symm⟩

theorem set_shader_eq_post (fuel : Nat) (c : ShaderCache) (h : Handle) (s0 : Shader)
    (c2 : ShaderCache) (ids : List CachedPipelineId)
    (hss : ShaderCache.set_shader fuel c h s0 = some (c2, ids)) :
    ∃ c1, ShaderCache.clear fuel c h = some (c1, ids) ∧ c2 = c1.setShaderPost h s0 := by
  revert hss
  unfold ShaderCache.set_shader
  rcases hc : ShaderCache.clear fuel c h with _ | ⟨c1, ids1⟩
  · intro hss
    exact absurd hss (by simp)
  · intro hss
    simp only [Option.some.injEq, Prod.mk.injEq] at hss
    obtain ⟨he1, he2⟩ := hss
    exact ⟨c1, by rw [he2], he1.symm⟩

/-- C4 (amended): order-independent import resolution, for an asset-path import.
 Registering a fresh shader C whose single import is the asset path
`s` while nothing provides `s` puts C on the path's waiting list and makes
`ShaderCache::get` for C fail with `ShaderImportNotYetAvailable` (for a custom import,
`get` does not fail this way — see the counterexample).  Registering a
provider B for `s` afterwards resolves every shader on the waiting list
(resolved-import entry set to B, waiting shader recorded as B's dependent),
drains the list, and makes C fully resolved — `get` for C no longer fails with
either retryable error — without C being re-registered. -/
theorem import_resolution_order_independence
    (fuel1 fuel2 : Nat) (cache0 cache1 cache2 : ShaderCache) (hC hB : Handle) (s : String)
    (shaderC shaderB : Shader) (ids1 ids2 : List CachedPipelineId)
    (hne : hB ≠ hC)
    (hprov0 : lookupA cache0.import_path_shaders (ShaderImport.assetPath s) = none)
    (hCimp : shaderC.imports = [ShaderImport.assetPath s])
    (hCpath : shaderC.import_path ≠ some (ShaderImport.assetPath s))
    (hCdata : lookupA cache0.data hC = none)
    (hCwait : ∀ q l, lookupA cache0.waiting_on_import q = some l → hC ∉ l)
    (h1 : ShaderCache.set_shader fuel1 cache0 hC shaderC = some (cache1, ids1))
    (hBpath : shaderB.import_path = some (ShaderImport.assetPath s))
    (h2 : ShaderCache.set_shader fuel2 cache1 hB shaderB = some (cache2, ids2)) :
    hC ∈ (lookupA cache1.waiting_on_import (ShaderImport.assetPath s)).getD [] ∧
    (∀ env dev pid defs, (ShaderCache.get env cache1 dev pid hC defs).1 =
       .error .ShaderImportNotYetAvailable) ∧
    (∀ w ∈ (lookupA cache1.waiting_on_import (ShaderImport.assetPath s)).getD [],
       lookupA (dataOf cache2 w).resolved_imports (ShaderImport.assetPath s) = some hB ∧
       w ∈ (dataOf cache2 hB).dependents) ∧
    lookupA cache2.waiting_on_import (ShaderImport.assetPath s) = some [] ∧
    (∀ env dev pid defs,
       (ShaderCache.get env cache2 dev pid hC defs).1 ≠
         .error .ShaderImportNotYetAvailable ∧
       ∀ h0, (ShaderCache.get env cache2 dev pid hC defs).1 ≠
         .error (.ShaderNotLoaded h0)) := by
  obtain ⟨c1A, hclr1, hc1eq⟩ := set_shader_eq_post fuel1 cache0 hC shaderC cache1 ids1 h1
  obtain ⟨hA, _hI⟩ := clear_nodata fuel1 cache0 hC c1A ids1 hCdata hclr1
  have hc1eq' : cache1 = cache0.setShaderPost hC shaderC := by
    rw [hc1eq, hA]
  subst hc1eq'
  obtain ⟨hSH, hRES, _hIP, hMEM⟩ :=
    setShaderPost_waiting_facts cache0 hC shaderC s hprov0 hCimp hCpath hCdata hCwait
  obtain ⟨c1B, hclr2, hc2eq⟩ :=
    set_shader_eq_post fuel2 (cache0.setShaderPost hC shaderC) hB shaderB cache2 ids2 h2
  subst hc2eq
  have hg : sameGraph (cache0.setShaderPost hC shaderC) c1B :=
    clearLoop_sameGraph _ _ _ _ _ _ hclr2
  obtain ⟨hfs, _hfi, hfw⟩ := clearLoop_fields _ _ _ _ _ _ hclr2
  rcases hw1 : lookupA (cache0.setShaderPost hC shaderC).waiting_on_import
      (ShaderImport.assetPath s) with _ | lst
  · rw [hw1] at hMEM
    exact absurd hMEM (by simp)
  · have hMEMl : hC ∈ lst := by
      rw [hw1] at hMEM
      simpa using hMEM
    have hwsB : lookupA c1B.waiting_on_import (ShaderImport.assetPath s) = some lst := by
      rw [hfw]
      exact hw1
    obtain ⟨hP1, hP2, hP3, hP4, hP5⟩ :=
      setShaderPost_provider_facts c1B hB shaderB s lst hBpath hwsB
    have hcnt1 : countAssetImports shaderC.imports ≠
        countAssetImports ((dataOf (cache0.setShaderPost hC shaderC) hC).resolved_imports.map
          Prod.fst) := by
      rw [hCimp, hRES]
      simp [countAssetImports, ShaderImport.isAssetPath]
    have hresB : (dataOf c1B hC).resolved_imports = [] := by
      rw [resolvedOf_of_sameGraph hg hC]
      exact hRES
    have hSH2 : lookupA (c1B.setShaderPost hB shaderB).shaders hC = some shaderC := by
      rw [hP4, lookupA_insertA_ne _ _ _ _ hne, hfs]
      exact hSH
    have hexact : (dataOf (c1B.setShaderPost hB shaderB) hC).resolved_imports =
        [(ShaderImport.assetPath s, hB)] := hP5 hC hne hMEMl hresB
    have hcnt2 : countAssetImports shaderC.imports =
        countAssetImports ((dataOf (c1B.setShaderPost hB shaderB) hC).resolved_imports.map
          Prod.fst) := by
      rw [hCimp, hexact]
      simp [countAssetImports, ShaderImport.isAssetPath]
    refine ⟨by simpa using hMEMl, ?_, ?_, hP3, ?_⟩
    · intro env dev pid defs
      exact get_import_not_yet env _ dev pid hC defs shaderC hSH hcnt1
    · intro w hw
      simp at hw
      exact ⟨hP1 w hw, hP2 w hw⟩
    · intro env dev pid defs
      exact get_resolved_not_retryable env _ dev pid hC defs shaderC hSH2 hcnt2

/-- A shader with a single custom (non-asset-path) import. -/
def cuShader : Shader := { import_path := none, imports := [.custom "p"], source := "c" }

/-- The cache after registering `cuShader` while nothing provides `p`. -/
def cuCache : ShaderCache × List CachedPipelineId :=
  (ShaderCache.set_shader 1 emptyShaderCache 0 cuShader).getD (emptyShaderCache, [])

/-- Counterexample for C4 as stated: for a shader whose unprovided import path
is a *custom* import, the shader is placed on that path's waiting list, yet
`ShaderCache::get` does not fail with `ShaderImportNotYetAvailable` — the import-count
check filters asset-path imports only, so the call reaches the
preprocessor (here failing with the preprocessor's own error). -/
theorem custom_import_is_not_retryable :
    0 ∈ (lookupA cuCache.1.waiting_on_import (.custom "p")).getD [] ∧
    (ShaderCache.get exEnvFail cuCache.1 emptyDeviceState 1 0 []).1 =
      .error (.ProcessShaderError "e") := by
  constructor
  · decide
  · decide

/-- A shader providing the asset path `lib.wgsl`. -/
def exShaderProv : Shader :=
  { import_path := some (.assetPath "lib.wgsl"), imports := [], source := "b" }

/-- Registering the waiting shader first. -/
def c4res1 : ShaderCache × List CachedPipelineId :=
  (ShaderCache.set_shader 1 emptyShaderCache 0 exShaderImp).getD (emptyShaderCache, [])

/-- Then registering the provider. -/
def c4res2 : ShaderCache × List CachedPipelineId :=
  (ShaderCache.set_shader 1 c4res1.1 1 exShaderProv).getD (emptyShaderCache, [])

/-- Witness for C4 on a concrete two-shader scenario. -/
theorem import_resolution_order_independence_witness :
    0 ∈ (lookupA c4res1.1.waiting_on_import (ShaderImport.assetPath "lib.wgsl")).getD [] ∧
    (∀ env dev pid defs, (ShaderCache.get env c4res1.1 dev pid 0 defs).1 =
       .error .ShaderImportNotYetAvailable) ∧
    (∀ w ∈ (lookupA c4res1.1.waiting_on_import
        (ShaderImport.assetPath "lib.wgsl")).getD [],
       lookupA (dataOf c4res2.1 w).resolved_imports
         (ShaderImport.assetPath "lib.wgsl") = some 1 ∧
       w ∈ (dataOf c4res2.1 1).dependents) ∧
    lookupA c4res2.1.waiting_on_import (ShaderImport.assetPath "lib.wgsl") = some [] ∧
    (∀ env dev pid defs,
       (ShaderCache.get env c4res2.1 dev pid 0 defs).1 ≠
         .error .ShaderImportNotYetAvailable ∧
       ∀ h0, (ShaderCache.get env c4res2.1 dev pid 0 defs).1 ≠
         .error (.ShaderNotLoaded h0)) :=
  import_resolution_order_independence 1 1 emptyShaderCache c4res1.1 c4res2.1 0 1
    "lib.wgsl" exShaderImp exShaderProv c4res1.2 c4res2.2
    (by decide) rfl rfl (by decide) rfl
    (fun q l hql => by simp [emptyShaderCache, lookupA] at hql)
    rfl rfl rfl
